import Mathlib

/-!
Verification of the spy-game backend core (role dealer, turn clock,
offline-session and room state machines, cleanup sweeper).

The definitions below are a shallow embedding of `backend/game_logic.py` and
`backend/main.py`.  Python's random draws (`secrets.choice`, `secrets.sample`,
`secrets.randbelow`) are modelled by explicit oracle parameters; the theorems
quantify over every admissible draw.  Wall-clock timestamps (`time.time()`,
`datetime.utcnow()`) are modelled as rationals, mappings (`dict`) as
insertion-ordered association lists, and Python exceptions as `Except`.
-/

namespace SpyGame

/-- `GameMode` / `RandomScenario` values from `game_logic.py`. -/
inductive RandomScenario where
  | standard
  | all_spies
  | same_card
  | one_outlier_card
  | different_cards
  | multi_spy
deriving DecidableEq, Repr

/-- `.value` of each `RandomScenario` enum member. -/
def RandomScenario.value : RandomScenario → String
  | .standard => "standard"
  | .all_spies => "all_spies"
  | .same_card => "same_card"
  | .one_outlier_card => "one_outlier_card"
  | .different_cards => "different_cards"
  | .multi_spy => "multi_spy"

/-- Iteration order of `RandomScenario` (declaration order of the enum). -/
def allScenarios : List RandomScenario :=
  [.standard, .all_spies, .same_card, .one_outlier_card, .different_cards, .multi_spy]

/-- `multiple_spies_count` from `backend/game_logic.py`. -/
def multiple_spies_count (player_count : Int) : Int :=
  if player_count ≤ 3 then 1
  else if player_count = 4 then 2
  else if player_count = 5 ∨ player_count = 6 then 2
  else if player_count = 7 ∨ player_count = 8 then 3
  else 3

/-- `allowed_map.get(value)`: the scenario whose `.value` equals the string. -/
def scenario_from_value (value : String) : Option RandomScenario :=
  allScenarios.find? (fun s => s.value = value)

/-- One step of the dedup loop in `resolve_random_scenario`:
`if scenario and scenario not in selected: selected.append(scenario)`. -/
def select_step (sel : List RandomScenario) (v : String) : List RandomScenario :=
  match scenario_from_value v with
  | some s => if s ∈ sel then sel else sel ++ [s]
  | none => sel

/-- The `for value in allowed_scenarios` loop building `selected`. -/
def dedup_selected (vals : List String) : List RandomScenario :=
  vals.foldl select_step []

/-- Candidate list computed by `resolve_random_scenario` before the final
random choice.  `none` models `allowed_scenarios=None`; a supplied empty list
is falsy in Python and is treated the same way by the `if allowed_scenarios:`
guard. -/
def resolve_candidates (player_count : Int) (allowed : Option (List String)) :
    List RandomScenario :=
  let selected :=
    match allowed with
    | some vals => dedup_selected vals
    | none => []
  let selected := if selected = [] then allScenarios else selected
  let selected :=
    if player_count ≤ 3 ∧ RandomScenario.multi_spy ∈ selected then
      selected.filter (fun s => s ≠ RandomScenario.multi_spy)
    else selected
  let selected :=
    if player_count < 2 ∧ RandomScenario.one_outlier_card ∈ selected then
      selected.filter (fun s => s ≠ RandomScenario.one_outlier_card)
    else selected
  selected

/-- `resolve_random_scenario`; the final `_rng.choice(selected)` is modelled
by the index `pick` taken modulo the candidate count. -/
def resolve_random_scenario (player_count : Int) (allowed : Option (List String))
    (pick : Nat) : Except String RandomScenario :=
  let selected := resolve_candidates player_count allowed
  if selected = [] then .error "No valid random scenarios available"
  else .ok (selected.getD (pick % selected.length) .standard)

/-- Oracle holding the outcomes of the random draws performed by
`deal_roles`.  Side conditions (membership in the list drawn from,
distinctness of a sample) appear as hypotheses of the theorems. -/
structure DealOracle (T : Type) where
  /-- outcome of `_rng.choice(player_list)` (spy / outlier player picks) -/
  spy : T
  /-- outcome of `_rng.choice(ALL_CARDS)` -/
  card : String
  /-- index for `_rng.choice(selected)` in scenario resolution -/
  scenario_pick : Nat
  /-- outcome of `_rng.sample(player_list, spy_count)` -/
  spies : List T
  /-- outcome of `_random_distinct_card(base_card)` -/
  outlier_card : String
  /-- outcome of `_rng.choice(player_list)` for the outlier player -/
  outlier_player : T
  /-- per-player outcomes of `_rng.choice(ALL_CARDS)` in `different_cards` -/
  card_for : T → String

/-- `deal_roles` from `backend/game_logic.py`.  `catalog` is `ALL_CARDS`
(loaded from `data/cards.py`, external to the dealer).  Returns
`(spies, cards_for_players, resolved_scenario_value)`; the dict comprehension
building `cards_for_players` over `player_list` is an association list in
input order. -/
def deal_roles {T : Type} [DecidableEq T] (catalog : List String)
    (players : List T) (game_mode : String)
    (random_allowed_modes : Option (List String)) (o : DealOracle T) :
    Except String (List T × List (T × Option String) × Option String) :=
  if players = [] then .ok ([], [], none)
  else if game_mode = "standard" then
    .ok ([o.spy],
         players.map (fun p => (p, if p = o.spy then none else some o.card)),
         none)
  else
    match resolve_random_scenario (players.length : Int) random_allowed_modes
        o.scenario_pick with
    | .error e => .error e
    | .ok scenario =>
      match scenario with
      | .standard =>
          .ok ([o.spy],
               players.map (fun p => (p, if p = o.spy then none else some o.card)),
               some "standard")
      | .all_spies =>
          .ok (players, players.map (fun p => (p, (none : Option String))),
               some "all_spies")
      | .same_card =>
          .ok ([], players.map (fun p => (p, some o.card)), some "same_card")
      | .one_outlier_card =>
          if catalog.length < 2 then
            .error "Need at least 2 cards for outlier scenario"
          else
            .ok ([],
                 players.map (fun p =>
                   (p, some (if p = o.outlier_player then o.outlier_card else o.card))),
                 some "one_outlier_card")
      | .different_cards =>
          .ok ([], players.map (fun p => (p, some (o.card_for p))),
               some "different_cards")
      | .multi_spy =>
          .ok (o.spies,
               players.map (fun p =>
                 (p, if p ∈ o.spies then none else some o.card)),
               some "multi_spy")

/-! Constants from `backend/main.py`.  Timestamps are rationals in seconds. -/

def APP_TTL_MINUTES : ℚ := 60

def MIN_PLAYERS : Int := 3

def MAX_PLAYERS : Int := 12

def MIN_TURN_TIME_SECONDS : Int := 5

def MAX_TURN_TIME_SECONDS : Int := 30

def DEFAULT_TURN_TIME_SECONDS : Int := 8

def OFFLINE_STATE_REVEALING : String := "revealing"

def TURN_STATE_WAITING : String := "waiting"

def TURN_STATE_READY_TO_START : String := "ready_to_start"

def TURN_STATE_ACTIVE : String := "turn_loop_active"

def TURN_STATE_FINISHED : String := "finished"

def ROOM_STATE_WAITING : String := "waiting"

def ROOM_STATE_STARTED : String := "started"

def ROOM_STATE_PAUSED : String := "paused"

def HEARTBEAT_STALE_SECONDS : ℚ := 20

/-- `PlayerId = Union[int, str]`: real Telegram ids are ints, synthetic bot
ids are strings.  `isinstance(player_id, int)` becomes matching on `.user`. -/
inductive PlayerId where
  | user (id : Int)
  | bot (tag : String)
deriving DecidableEq, Repr

/-- `str(user_id)` for status messages. -/
def playerIdStr : PlayerId → String
  | .user i => toString i
  | .bot s => s

/-- A roster entry dict built by `build_player_entry` / `build_bot_entry`
(the `user_id` field duplicates the key and is dropped here). -/
structure PlayerEntry where
  first_name : Option String
  last_name : Option String
  display_name : String
  is_bot : Bool
deriving DecidableEq, Repr

/-- `build_bot_entry(bot_id, bot_number)` (sans the key field). -/
def build_bot_entry (bot_number : Nat) : PlayerEntry :=
  { first_name := none, last_name := none
    display_name := "Bot " ++ toString bot_number, is_bot := true }

/-- Python `dict` lookup on an insertion-ordered association list. -/
def alist_get {β : Type} (l : List (PlayerId × β)) (k : PlayerId) : Option β :=
  (l.find? (fun pr => pr.1 == k)).map (fun pr => pr.2)

/-- Python `del d[k]` / `d.pop(k, None)` (keys are unique, so removing every
match removes the one entry). -/
def alist_erase {β : Type} (l : List (PlayerId × β)) (k : PlayerId) :
    List (PlayerId × β) :=
  l.filter (fun pr => pr.1 != k)

/-- Python `d[k] = v`: update in place if present, else append. -/
def alist_set {β : Type} (l : List (PlayerId × β)) (k : PlayerId) (v : β) :
    List (PlayerId × β) :=
  if l.any (fun pr => pr.1 == k) then
    l.map (fun pr => if pr.1 == k then (pr.1, v) else pr)
  else l ++ [(k, v)]

/-- `OfflineSession` dataclass (the string `session_id` key lives in the
store, not the record). -/
structure OfflineSession where
  owner_user_id : Int
  game_mode : String
  resolved_random_mode : Option String
  player_count : Int
  current_player_number : Int
  timer_enabled : Bool
  turn_time_seconds : Option Int
  current_turn_index : Int
  players_order : List Int
  turn_active : Bool
  turn_started_at : Option ℚ
  turns_completed : Bool
  spy_players : List Int
  cards_for_players : List (Int × Option String)
  random_allowed_modes : List String
  starter_player_number : Option Int
  state : String
  created_at : ℚ
deriving DecidableEq, Repr

/-- `RoomSession` dataclass (the `room_code` key lives in the store). -/
structure RoomSession where
  owner_user_id : Int
  owner_name : String
  format_mode : String
  play_mode : String
  players : List (PlayerId × PlayerEntry)
  last_seen_by_user : List (PlayerId × ℚ)
  resolved_random_mode : Option String
  random_allowed_modes : List String
  player_limit : Int
  timer_enabled : Bool
  turn_time_seconds : Option Int
  current_turn_index : Int
  players_order : List PlayerId
  turn_active : Bool
  turn_state : String
  turn_started_at : Option ℚ
  turns_completed : Bool
  spy_user_ids : List PlayerId
  cards_by_user : List (PlayerId × Option String)
  state : String
  starter_user_id : Option PlayerId
  last_status_message : Option String
  last_status_at : Option ℚ
  created_at : ℚ
deriving DecidableEq, Repr

/-- `cleanup_sessions` over the two stores (association lists keyed by
session id / room code), at wall time `now`. -/
def cleanup_sessions (sessions : List (String × OfflineSession))
    (rooms : List (String × RoomSession)) (now : ℚ) :
    List (String × OfflineSession) × List (String × RoomSession) :=
  (sessions.filter (fun pr =>
     decide (¬ now - pr.2.created_at > APP_TTL_MINUTES * 60)),
   rooms.filter (fun pr =>
     decide (¬ (now - pr.2.created_at > APP_TTL_MINUTES * 60 ∧
                pr.2.state = ROOM_STATE_WAITING))))

/-- `normalize_timer_settings`; `HTTPException(400, ...)` is `.error`. -/
def normalize_timer_settings (timer_enabled : Bool)
    (turn_time_seconds : Option Int) : Except String (Bool × Option Int) :=
  if timer_enabled = false then .ok (false, none)
  else
    let t := turn_time_seconds.getD DEFAULT_TURN_TIME_SECONDS
    if t < MIN_TURN_TIME_SECONDS ∨ t > MAX_TURN_TIME_SECONDS then
      .error "Неверное значение времени хода"
    else .ok (true, some t)

/-- `clamp_turn_index` (the logging side effect is dropped). -/
def clamp_turn_index (current_turn_index : Int) (total_players : Nat) : Int :=
  if total_players = 0 then 0
  else max 0 (min current_turn_index ((total_players : Int) - 1))

/-- `ensure_offline_players_order`. -/
def ensure_offline_players_order (s : OfflineSession) : OfflineSession :=
  if s.players_order ≠ [] then s
  else if s.player_count ≤ 0 then
    { s with players_order := [1], current_turn_index := 0 }
  else
    { s with
      players_order := (List.range s.player_count.toNat).map (fun i => (i : Int) + 1)
      current_turn_index := 0 }

/-- `ensure_room_players_order`. -/
def ensure_room_players_order (room : RoomSession) : RoomSession :=
  if room.players_order ≠ [] then room
  else if room.players ≠ [] then
    { room with
        players_order := room.players.map (fun pr => pr.1)
        current_turn_index := 0 }
  else
    { room with players_order := [], current_turn_index := 0 }

/-- `normalize_offline_turn_state`: returns the repaired session and the
boolean result of the Python function. -/
def normalize_offline_turn_state (s : OfflineSession) : OfflineSession × Bool :=
  if s.timer_enabled = false then
    ({ s with
        turn_time_seconds := none, turn_started_at := none
        turn_active := false
        turns_completed := decide (s.state = TURN_STATE_FINISHED) }, false)
  else
    let s :=
      match s.turn_time_seconds with
      | none => { s with turn_time_seconds := some DEFAULT_TURN_TIME_SECONDS }
      | some t =>
          if t < MIN_TURN_TIME_SECONDS ∨ t > MAX_TURN_TIME_SECONDS then
            { s with turn_time_seconds := some DEFAULT_TURN_TIME_SECONDS }
          else s
    let s := ensure_offline_players_order s
    let s := { s with
      current_turn_index := clamp_turn_index s.current_turn_index s.players_order.length }
    if s.players_order = [] then
      ({ s with
          turns_completed := true, turn_active := false
          state := TURN_STATE_FINISHED, turn_started_at := none }, false)
    else (s, true)

/-- `normalize_room_turn_state`. -/
def normalize_room_turn_state (room : RoomSession) : RoomSession × Bool :=
  if room.timer_enabled = false then
    ({ room with
        turn_time_seconds := none, turn_started_at := none
        turn_active := false
        turns_completed := decide (room.turn_state = TURN_STATE_FINISHED) }, false)
  else
    let room :=
      match room.turn_time_seconds with
      | none => { room with turn_time_seconds := some DEFAULT_TURN_TIME_SECONDS }
      | some t =>
          if t < MIN_TURN_TIME_SECONDS ∨ t > MAX_TURN_TIME_SECONDS then
            { room with turn_time_seconds := some DEFAULT_TURN_TIME_SECONDS }
          else room
    let room := ensure_room_players_order room
    let room := { room with
      current_turn_index := clamp_turn_index room.current_turn_index room.players_order.length }
    if room.players_order = [] then
      ({ room with
          turns_completed := true, turn_active := false
          turn_state := TURN_STATE_FINISHED, turn_started_at := none }, false)
    else (room, true)

/-- `advance_offline_turn` at wall time `now`.  `int(elapsed // ts)` with a
positive integer `ts` is the floor of `elapsed / ts`. -/
def advance_offline_turn (s : OfflineSession) (now : ℚ) : OfflineSession :=
  if s.state ≠ TURN_STATE_ACTIVE ∨ s.turn_active = false then s
  else
    let r := normalize_offline_turn_state s
    if r.2 = false then r.1
    else
      let s := r.1
      match s.turn_started_at, s.turn_time_seconds with
      | some t0, some ts =>
          let elapsed := now - t0
          if elapsed < (ts : ℚ) then s
          else
            let steps_elapsed : Int := ⌊elapsed / (ts : ℚ)⌋
            if steps_elapsed ≤ 0 then s
            else
              { s with
                current_turn_index :=
                  (s.current_turn_index + steps_elapsed) % (s.players_order.length : Int)
                turn_started_at := some (t0 + (steps_elapsed : ℚ) * (ts : ℚ)) }
      | _, _ => s

/-- `advance_room_turn` at wall time `now`. -/
def advance_room_turn (room : RoomSession) (now : ℚ) : RoomSession :=
  if room.state ≠ ROOM_STATE_STARTED ∨ room.turn_state ≠ TURN_STATE_ACTIVE ∨
      room.turn_active = false then room
  else
    let r := normalize_room_turn_state room
    if r.2 = false then r.1
    else
      let room := r.1
      match room.turn_started_at, room.turn_time_seconds with
      | some t0, some ts =>
          let elapsed := now - t0
          if elapsed < (ts : ℚ) then room
          else
            let steps_elapsed : Int := ⌊elapsed / (ts : ℚ)⌋
            if steps_elapsed ≤ 0 then room
            else
              { room with
                current_turn_index :=
                  (room.current_turn_index + steps_elapsed) % (room.players_order.length : Int)
                turn_started_at := some (t0 + (steps_elapsed : ℚ) * (ts : ℚ)) }
      | _, _ => room

/-- `set_room_status_message` at wall time `now`. -/
def set_room_status_message (room : RoomSession) (message : String) (now : ℚ) :
    RoomSession :=
  { room with last_status_message := some message, last_status_at := some now }

/-- `real_room_player_ids`: int keys of the roster, in insertion order. -/
def real_room_player_ids (room : RoomSession) : List Int :=
  room.players.filterMap (fun pr =>
    match pr.1 with
    | .user i => some i
    | .bot _ => none)

/-- `touch_room_user` at wall time `now`. -/
def touch_room_user (room : RoomSession) (user_id : PlayerId) (now : ℚ) :
    RoomSession :=
  if (alist_get room.players user_id).isSome then
    { room with last_seen_by_user := alist_set room.last_seen_by_user user_id now }
  else room

/-- `pause_room_after_participant_change`. -/
def pause_room_after_participant_change (room : RoomSession) (message : String)
    (now : ℚ) : RoomSession :=
  let room :=
    if room.state = ROOM_STATE_STARTED ∨ room.state = ROOM_STATE_PAUSED then
      { room with
          state := ROOM_STATE_PAUSED, turn_active := false
          turn_started_at := none }
    else room
  set_room_status_message room message now

/-- `remove_room_participant`, lines popping the departing id from
`players_order` and deleting it from `players`, `last_seen_by_user`,
`cards_by_user` and `spy_user_ids`. -/
def remove_entries_step (room : RoomSession) (user_id : PlayerId) : RoomSession :=
  { room with
      players_order := room.players_order.erase user_id
      players := alist_erase room.players user_id
      last_seen_by_user := alist_erase room.last_seen_by_user user_id
      cards_by_user := alist_erase room.cards_by_user user_id
      spy_user_ids := room.spy_user_ids.filter (fun s => s != user_id) }

/-- `remove_room_participant`, the `starter_user_id` reassignment. -/
def remove_starter_step (room : RoomSession) (user_id : PlayerId) : RoomSession :=
  if room.starter_user_id = some user_id then
    { room with starter_user_id := room.players_order.head? }
  else room

/-- `remove_room_participant`, the `current_turn_index` adjustment (given
the index the id held in `players_order` before the pop, if any). -/
def remove_index_step (room : RoomSession) (removed_index : Option Nat) :
    RoomSession :=
  if room.players_order ≠ [] then
    let idx :=
      match removed_index with
      | some ri =>
          if (ri : Int) < room.current_turn_index then
            room.current_turn_index - 1
          else if (ri : Int) = room.current_turn_index ∧
              room.current_turn_index ≥ (room.players_order.length : Int) then 0
          else room.current_turn_index
      | none => room.current_turn_index
    { room with
      current_turn_index := clamp_turn_index idx room.players_order.length }
  else
    { room with
        current_turn_index := 0, turn_active := false
        turn_started_at := none, turn_state := TURN_STATE_FINISHED
        turns_completed := true }

/-- `[player_id for player_id in room.players_order if isinstance(player_id, int)]`. -/
def real_ids_in_order (order : List PlayerId) : List Int :=
  order.filterMap (fun p =>
    match p with
    | .user i => some i
    | .bot _ => none)

/-- `remove_room_participant`, the ownership reassignment when the owner
left. -/
def remove_owner_step (room : RoomSession) (user_id : PlayerId) : RoomSession :=
  if PlayerId.user room.owner_user_id = user_id ∧ room.players ≠ [] then
    let fallback_real_ids := real_room_player_ids room
    let next_owner_id : Option Int :=
      match real_ids_in_order room.players_order with
      | i :: _ => some i
      | [] =>
        match fallback_real_ids with
        | i :: _ => some i
        | [] => none
    match next_owner_id with
    | some nid =>
        { room with
            owner_user_id := nid
            owner_name :=
              match alist_get room.players (.user nid) with
              | some e => e.display_name
              | none => "" }
    | none => { room with owner_name := "" }
  else room

/-- `remove_room_participant`; returns the mutated room plus the boolean
result.  The body composes the step functions above in source order. -/
def remove_room_participant (room : RoomSession) (user_id : PlayerId)
    (reason_message : String) (now : ℚ) : RoomSession × Bool :=
  match alist_get room.players user_id with
  | none => (room, false)
  | some entry =>
    let display_name :=
      if entry.display_name = "" then "Игрок " ++ playerIdStr user_id
      else entry.display_name
    let removed_index : Option Nat := room.players_order.indexOf? user_id
    let room := remove_entries_step room user_id
    let room := remove_starter_step room user_id
    let room := remove_index_step room removed_index
    let room := remove_owner_step room user_id
    (pause_room_after_participant_change room
      (display_name ++ " " ++ reason_message) now, true)

/-- `drop_stale_room_players` at wall time `now`. -/
def drop_stale_room_players (room : RoomSession) (now : ℚ) : RoomSession × Bool :=
  if room.state = ROOM_STATE_WAITING then (room, false)
  else
    let stale_user_ids :=
      (room.last_seen_by_user.filter (fun pr =>
        (alist_get room.players pr.1).isSome &&
          decide (now - pr.2 > HEARTBEAT_STALE_SECONDS))).map (fun pr => pr.1)
    let room := stale_user_ids.foldl (fun r uid =>
      (remove_room_participant r uid "вышел из комнаты" now).1) room
    (room, room.players = [] ∨ real_room_player_ids room = [])

/-- `parse_bot_number`: the `^Bot (\d+)$` regex match. -/
def parse_bot_number (name : String) : Option Nat :=
  if name.startsWith "Bot " then
    let digits := name.drop 4
    if digits ≠ "" ∧ digits.all (fun c => c.isDigit) then digits.toNat?
    else none
  else none

/-- `next_bot_number`. -/
def next_bot_number (room : RoomSession) : Nat :=
  (room.players.foldl (fun mx pr =>
    if pr.2.is_bot then
      match parse_bot_number pr.2.display_name with
      | some n => max mx n
      | none => mx
    else mx) 0) + 1

/-- `add_room_bots`; `fresh_ids` models the ids drawn by `generate_bot_id`.
Returns the mutated room and the added count. -/
def add_room_bots (room : RoomSession) (requested_count : Int)
    (fresh_ids : Nat → String) : RoomSession × Int :=
  let available_slots := max 0 (room.player_limit - (room.players.length : Int))
  let to_add := min (max requested_count 0) available_slots
  if to_add ≤ 0 then (room, 0)
  else
    let start_number := next_bot_number room
    let room := (List.range to_add.toNat).foldl (fun r offset =>
      { r with
          players := alist_set r.players (.bot (fresh_ids offset))
            (build_bot_entry (start_number + offset)) }) room
    (room, to_add)

/-- The `room_join` endpoint, from the store lookup on: `none` models a
missing/expired room code.  `entry` is the record `build_player_entry`
derives for the verified caller. -/
def room_join (room? : Option RoomSession) (user_id : Int) (entry : PlayerEntry)
    (req_format_mode : Option String) (_req_game_mode : Option String)
    (now : ℚ) : Except String RoomSession :=
  match room? with
  | none => .error "Комната не найдена"
  | some room =>
    let r := drop_stale_room_players room now
    if r.2 then .error "Комната не найдена"
    else
      let room := r.1
      if room.format_mode ≠ "online" then
        .error "Эта комната доступна только в онлайн-режиме"
      else if (req_format_mode.getD "") ≠ "" ∧ req_format_mode ≠ some "online" then
        .error "Эта комната доступна только в онлайн-режиме"
      else if room.state ≠ ROOM_STATE_WAITING then .error "Игра уже началась"
      else if alist_get room.players (.user user_id) = none ∧
          (room.players.length : Int) ≥ room.player_limit then
        .error "Комната заполнена"
      else
        let room :=
          if alist_get room.players (.user user_id) = none then
            { room with players := room.players ++ [(.user user_id, entry)] }
          else room
        .ok (touch_room_user room (.user user_id) now)

/-- `random_int(start, end)`: `below` models `secrets.randbelow(end - start + 1)`
(so `0 ≤ below ≤ end - start`). -/
def random_int (start : Int) (below : Int) : Int :=
  below + start

/-- `random_choice(items)`: returns `0` on an empty list, otherwise the
element at the drawn index (modelled by `pick` modulo the length). -/
def random_choice (items : List PlayerId) (pick : Nat) : PlayerId :=
  if items = [] then .user 0
  else items.getD (pick % items.length) (.user 0)

/-- The `offline_close` response model. -/
structure OfflineCloseResponse where
  finished : Bool
  current_player_number : Option Int := none
  starter_player_number : Option Int := none
deriving DecidableEq, Repr

/-- The `offline_close` endpoint after the ownership check; `below` models
the `secrets.randbelow(player_count)` draw inside `random_int(1, player_count)`. -/
def offline_close (s : OfflineSession) (below : Int) :
    OfflineSession × OfflineCloseResponse :=
  if s.current_player_number < s.player_count then
    let s := { s with current_player_number := s.current_player_number + 1 }
    (s, { finished := false, current_player_number := some s.current_player_number })
  else
    let starter := random_int 1 below
    let s := { s with starter_player_number := some starter }
    if s.timer_enabled then
      ({ s with
          state := TURN_STATE_READY_TO_START
          current_turn_index := (s.players_order.indexOf starter : Int)
          turn_started_at := none, turn_active := false, turns_completed := false },
       { finished := true, starter_player_number := some starter })
    else
      ({ s with
          state := TURN_STATE_FINISHED, current_turn_index := 0
          turn_started_at := none, turn_active := false, turns_completed := true },
       { finished := true, starter_player_number := some starter })

/-- The `room_start` endpoint after the store lookup, for the verified
caller `caller_id`.  Randomness: `o` for `deal_roles`, `starter_pick` for
`random_choice(players)`. -/
def room_start (room : RoomSession) (caller_id : Int) (catalog : List String)
    (o : DealOracle PlayerId) (starter_pick : Nat) (now : ℚ) :
    Except String (RoomSession × PlayerId) :=
  let room := touch_room_user room (.user caller_id) now
  let r := drop_stale_room_players room now
  if r.2 then .error "Room not found"
  else
    let room := r.1
    if room.owner_user_id ≠ caller_id then .error "Only owner can start"
    else if room.state ≠ ROOM_STATE_WAITING then .error "Game already started"
    else if (room.players.length : Int) < MIN_PLAYERS then
      .error "Not enough players"
    else
      let players := room.players.map (fun pr => pr.1)
      match deal_roles catalog players room.play_mode
          (some room.random_allowed_modes) o with
      | .error _ => .error "Недостаточно режимов для случайного выбора"
      | .ok (spies, cards_by_user, resolved_mode) =>
        let starter_user_id := random_choice players starter_pick
        let room := { room with
          spy_user_ids := spies, cards_by_user := cards_by_user
          resolved_random_mode := resolved_mode
          state := ROOM_STATE_STARTED
          players_order := players
          starter_user_id := some starter_user_id
          current_turn_index := (players.indexOf starter_user_id : Int)
          turn_started_at := none, turn_active := false
          turn_state :=
            if room.timer_enabled then TURN_STATE_READY_TO_START
            else TURN_STATE_FINISHED
          turns_completed := !room.timer_enabled
          last_status_message := none, last_status_at := none }
        .ok (room, starter_user_id)

/-- The `room_restart` endpoint after the store lookup (no waiting-state
check, unlike `room_start`). -/
def room_restart (room : RoomSession) (caller_id : Int) (catalog : List String)
    (o : DealOracle PlayerId) (starter_pick : Nat) (now : ℚ) :
    Except String (RoomSession × PlayerId) :=
  let room := touch_room_user room (.user caller_id) now
  let r := drop_stale_room_players room now
  if r.2 then .error "Room not found"
  else
    let room := r.1
    if room.owner_user_id ≠ caller_id then .error "Only owner can restart"
    else if (room.players.length : Int) < MIN_PLAYERS then
      .error "Недостаточно игроков для перезапуска"
    else
      let players := room.players.map (fun pr => pr.1)
      match deal_roles catalog players room.play_mode
          (some room.random_allowed_modes) o with
      | .error _ => .error "Недостаточно режимов для случайного выбора"
      | .ok (spies, cards_by_user, resolved_mode) =>
        let starter_user_id := random_choice players starter_pick
        let room := { room with
          spy_user_ids := spies, cards_by_user := cards_by_user
          resolved_random_mode := resolved_mode
          state := ROOM_STATE_STARTED
          players_order := players
          starter_user_id := some starter_user_id
          current_turn_index := (players.indexOf starter_user_id : Int)
          turn_started_at := none, turn_active := false
          turn_state :=
            if room.timer_enabled then TURN_STATE_READY_TO_START
            else TURN_STATE_FINISHED
          turns_completed := !room.timer_enabled
          last_status_message := none, last_status_at := none }
        .ok (room, starter_user_id)

/-- Concrete oracle used to instantiate the role-dealer theorems on the
standard mode. -/
def oracleStd : DealOracle Nat :=
  { spy := 2, card := "Knight", scenario_pick := 0, spies := []
    outlier_card := "", outlier_player := 1, card_for := fun _ => "" }

/-- Concrete oracle used to instantiate the role-dealer theorems on the
multi-spy scenario. -/
def oracleMulti : DealOracle Nat :=
  { spy := 1, card := "Knight", scenario_pick := 0, spies := [2, 4]
    outlier_card := "", outlier_player := 1, card_for := fun _ => "" }

deriving instance DecidableEq for Except

/-- Concrete offline session fixture: 4 seats, reveal phase complete, timer
running at 5 seconds per turn since t = 0. -/
def sessionTimer : OfflineSession :=
  { owner_user_id := 7, game_mode := "standard", resolved_random_mode := none
    player_count := 4, current_player_number := 4, timer_enabled := true
    turn_time_seconds := some 5, current_turn_index := 0
    players_order := [1, 2, 3, 4], turn_active := true
    turn_started_at := some 0, turns_completed := false, spy_players := [2]
    cards_for_players := [(1, some "Knight"), (2, none), (3, some "Knight"), (4, some "Knight")]
    random_allowed_modes := [], starter_player_number := none
    state := TURN_STATE_ACTIVE, created_at := 0 }

/-- Concrete roster entry fixture for a human participant. -/
def entryAlice : PlayerEntry :=
  { first_name := some "Alice", last_name := none, display_name := "Alice", is_bot := false }

/-- Concrete roster entry fixture for a second human participant. -/
def entryBella : PlayerEntry :=
  { first_name := some "Bella", last_name := none, display_name := "Bella", is_bot := false }

/-- Concrete roster entry fixture for a third human participant. -/
def entryCarol : PlayerEntry :=
  { first_name := some "Carol", last_name := none, display_name := "Carol", is_bot := false }

/-- Concrete roster entry fixture for a fourth human participant. -/
def entryDiana : PlayerEntry :=
  { first_name := some "Diana", last_name := none, display_name := "Diana", is_bot := false }

/-- Concrete room fixture: 4 participants, started, timer running at 5
seconds per turn since t = 0, with the turn pointer on seat 1. -/
def roomTimer : RoomSession :=
  { owner_user_id := 1, owner_name := "Alice", format_mode := "online"
    play_mode := "standard"
    players := [(.user 1, entryAlice), (.user 2, entryBella),
                (.user 3, entryCarol), (.user 4, entryDiana)]
    last_seen_by_user := [(.user 1, 0), (.user 2, 0), (.user 3, 0), (.user 4, 0)]
    resolved_random_mode := none, random_allowed_modes := []
    player_limit := 6, timer_enabled := true, turn_time_seconds := some 5
    current_turn_index := 1
    players_order := [.user 1, .user 2, .user 3, .user 4]
    turn_active := true, turn_state := TURN_STATE_ACTIVE
    turn_started_at := some 0, turns_completed := false
    spy_user_ids := [.user 2]
    cards_by_user := [(.user 1, some "Knight"), (.user 2, none),
                      (.user 3, some "Knight"), (.user 4, some "Knight")]
    state := ROOM_STATE_STARTED, starter_user_id := some (.user 2)
    last_status_message := none, last_status_at := none, created_at := 0 }

/-- Concrete room fixture: 2 participants, waiting lobby, capacity 3. -/
def roomWaiting : RoomSession :=
  { owner_user_id := 1, owner_name := "Alice", format_mode := "online"
    play_mode := "standard"
    players := [(.user 1, entryAlice), (.user 2, entryBella)]
    last_seen_by_user := [(.user 1, 0), (.user 2, 0)]
    resolved_random_mode := none, random_allowed_modes := []
    player_limit := 3, timer_enabled := false, turn_time_seconds := none
    current_turn_index := 0, players_order := []
    turn_active := false, turn_state := TURN_STATE_WAITING
    turn_started_at := none, turns_completed := false
    spy_user_ids := [], cards_by_user := []
    state := ROOM_STATE_WAITING, starter_user_id := none
    last_status_message := none, last_status_at := none, created_at := 0 }

/-- Concrete room fixture: 3 participants, waiting lobby, at capacity. -/
def roomLobby : RoomSession :=
  { roomWaiting with players := roomWaiting.players ++ [(.user 3, entryCarol)] }

/-- Concrete oracle over `PlayerId` players for the room start theorems. -/
def oraclePid : DealOracle PlayerId :=
  { spy := .user 1, card := "Knight", scenario_pick := 0, spies := []
    outlier_card := "", outlier_player := .user 1, card_for := fun _ => "" }

/-! ## Theorems -/

/-- C1: dealing roles for a non-empty ordered sequence of distinct players in
mode `"standard"` succeeds with exactly one spy (a member of the input), a
secret map holding exactly one entry per input player in which the spy maps
to `none` and every other player maps to one identical secret drawn from the
catalog, and an absent resolved scenario. -/
theorem deal_roles_standard_spec {T : Type} [DecidableEq T]
    (catalog : List String) (players : List T)
    (allowed : Option (List String)) (o : DealOracle T)
    (hne : players ≠ []) (hnd : players.Nodup)
    (hspy : o.spy ∈ players) (hcard : o.card ∈ catalog) :
    ∃ cards,
      deal_roles catalog players "standard" allowed o = .ok ([o.spy], cards, none) ∧
      o.spy ∈ players ∧ o.card ∈ catalog ∧
      cards.map Prod.fst = players ∧
      (∀ pr ∈ cards, pr.1 = o.spy → pr.2 = none) ∧
      (∀ pr ∈ cards, pr.1 ≠ o.spy → pr.2 = some o.card) ∧
      (cards.filter (fun pr => decide (pr.2 = none))).length = 1 := by
  refine ⟨players.map (fun p => (p, if p = o.spy then none else some o.card)),
    ?_, hspy, hcard, ?_, ?_, ?_, ?_⟩
  · simp [deal_roles, hne]
  · have : (Prod.fst ∘ fun p : T => (p, if p = o.spy then none else some o.card)) = id := by
      funext p
      rfl
    rw [List.map_map, this, List.map_id]
  · intro pr hpr h1
    rcases List.mem_map.mp hpr with ⟨p, hp, rfl⟩
    simp only at h1
    subst h1
    simp
  · intro pr hpr h1
    rcases List.mem_map.mp hpr with ⟨p, hp, rfl⟩
    simp only at h1 ⊢
    simp [h1]
  · rw [List.filter_map]
    rw [List.length_map]
    rw [List.filter_congr (q := fun p => p == o.spy)]
    · rw [← List.countP_eq_length_filter]
      rw [← List.count]
      exact List.count_eq_one_of_mem hnd hspy
    · intro a ha
      by_cases h : a = o.spy <;> simp [h]

/-- Closed instance of `deal_roles_standard_spec` with every hypothesis
discharged on concrete data. -/
theorem deal_roles_standard_spec_witness :
    ∃ cards,
      deal_roles ["Knight", "Archer"] [1, 2, 3] "standard" none oracleStd =
        .ok ([2], cards, none) ∧
      2 ∈ [1, 2, 3] ∧ "Knight" ∈ ["Knight", "Archer"] ∧
      cards.map Prod.fst = [1, 2, 3] ∧
      (∀ pr ∈ cards, pr.1 = 2 → pr.2 = none) ∧
      (∀ pr ∈ cards, pr.1 ≠ 2 → pr.2 = some "Knight") ∧
      (cards.filter (fun pr => decide (pr.2 = none))).length = 1 :=
  deal_roles_standard_spec ["Knight", "Archer"] [1, 2, 3] none oracleStd
    (by decide) (by decide) (by decide) (by decide)

/-- C4: when scenario resolution picks `multi_spy`, dealing produces a spy
set of exactly `k` distinct players drawn from the input, with `k = 1` for
`n ≤ 3`, `k = 2` for `n = 4`, `k = 2` for `n ∈ \x7b5, 6\x7d`, `k = 3` for
`n ∈ \x7b7, 8\x7d` and `k = 3` for `n ≥ 9`; every spy maps to `none` and every
non-spy maps to one shared secret. -/
theorem deal_roles_multi_spy_spec {T : Type} [DecidableEq T]
    (catalog : List String) (players : List T)
    (allowed : Option (List String)) (o : DealOracle T)
    (hres : resolve_random_scenario (players.length : Int) allowed o.scenario_pick =
      .ok RandomScenario.multi_spy)
    (hne : players ≠ [])
    (hlen : (o.spies.length : Int) = multiple_spies_count (players.length : Int))
    (hnd : o.spies.Nodup) (hsub : ∀ p ∈ o.spies, p ∈ players) :
    ∃ cards,
      deal_roles catalog players "random" allowed o =
        .ok (o.spies, cards, some "multi_spy") ∧
      o.spies.Nodup ∧ (∀ p ∈ o.spies, p ∈ players) ∧
      (players.length ≤ 3 → o.spies.length = 1) ∧
      (players.length = 4 → o.spies.length = 2) ∧
      (players.length = 5 ∨ players.length = 6 → o.spies.length = 2) ∧
      (players.length = 7 ∨ players.length = 8 → o.spies.length = 3) ∧
      (9 ≤ players.length → o.spies.length = 3) ∧
      cards.map Prod.fst = players ∧
      (∀ pr ∈ cards, pr.1 ∈ o.spies → pr.2 = none) ∧
      (∀ pr ∈ cards, pr.1 ∉ o.spies → pr.2 = some o.card) := by
  refine ⟨players.map (fun p => (p, if p ∈ o.spies then none else some o.card)),
    ?_, hnd, hsub, ?_, ?_, ?_, ?_, ?_, ?_, ?_, ?_⟩
  · simp only [deal_roles, if_neg hne]
    rw [if_neg (by decide : ¬ ("random" = "standard"))]
    rw [hres]
  · intro h
    unfold multiple_spies_count at hlen
    omega
  · intro h
    unfold multiple_spies_count at hlen
    omega
  · intro h
    unfold multiple_spies_count at hlen
    omega
  · intro h
    unfold multiple_spies_count at hlen
    omega
  · intro h
    unfold multiple_spies_count at hlen
    omega
  · have : (Prod.fst ∘ fun p : T => (p, if p ∈ o.spies then none else some o.card)) = id := by
      funext p
      rfl
    rw [List.map_map, this, List.map_id]
  · intro pr hpr h1
    rcases List.mem_map.mp hpr with ⟨p, hp, rfl⟩
    simp only at h1 ⊢
    simp [h1]
  · intro pr hpr h1
    rcases List.mem_map.mp hpr with ⟨p, hp, rfl⟩
    simp only at h1 ⊢
    simp [h1]

/-- Closed instance of `deal_roles_multi_spy_spec` with every hypothesis
discharged on concrete data (5 players, forced `multi_spy` resolution,
sample of 2 distinct spies). -/
theorem deal_roles_multi_spy_spec_witness :
    ∃ cards,
      deal_roles ["Knight", "Archer"] [1, 2, 3, 4, 5] "random"
          (some ["multi_spy", "same_card"]) oracleMulti =
        .ok ([2, 4], cards, some "multi_spy") ∧
      ([2, 4] : List Nat).Nodup ∧ (∀ p ∈ ([2, 4] : List Nat), p ∈ [1, 2, 3, 4, 5]) ∧
      (([1, 2, 3, 4, 5] : List Nat).length ≤ 3 → ([2, 4] : List Nat).length = 1) ∧
      (([1, 2, 3, 4, 5] : List Nat).length = 4 → ([2, 4] : List Nat).length = 2) ∧
      (([1, 2, 3, 4, 5] : List Nat).length = 5 ∨ ([1, 2, 3, 4, 5] : List Nat).length = 6 →
        ([2, 4] : List Nat).length = 2) ∧
      (([1, 2, 3, 4, 5] : List Nat).length = 7 ∨ ([1, 2, 3, 4, 5] : List Nat).length = 8 →
        ([2, 4] : List Nat).length = 3) ∧
      (9 ≤ ([1, 2, 3, 4, 5] : List Nat).length → ([2, 4] : List Nat).length = 3) ∧
      cards.map Prod.fst = [1, 2, 3, 4, 5] ∧
      (∀ pr ∈ cards, pr.1 ∈ ([2, 4] : List Nat) → pr.2 = none) ∧
      (∀ pr ∈ cards, pr.1 ∉ ([2, 4] : List Nat) → pr.2 = some "Knight") :=
  deal_roles_multi_spy_spec ["Knight", "Archer"] [1, 2, 3, 4, 5]
    (some ["multi_spy", "same_card"]) oracleMulti
    (by decide) (by decide) (by decide) (by decide) (by decide)

/-- The dedup loop keeps a sublist of the known-scenario image of the
processed values, appended to anything the accumulator was a sublist of. -/
theorem foldl_select_step_sublist (vals : List String) :
    ∀ sel pre : List RandomScenario, sel.Sublist pre →
      (List.foldl select_step sel vals).Sublist
        (pre ++ vals.filterMap scenario_from_value) := by
  induction vals with
  | nil =>
    intro sel pre h
    simpa using h
  | cons v vs ih =>
    intro sel pre h
    cases hv : scenario_from_value v with
    | none =>
      have hstep : select_step sel v = sel := by
        simp [select_step, hv]
      have := ih (select_step sel v) pre (by rwa [hstep])
      simpa [hv] using this
    | some s =>
      have hstep : (select_step sel v).Sublist (pre ++ [s]) := by
        by_cases hmem : s ∈ sel
        · have : select_step sel v = sel := by simp [select_step, hv, hmem]
          rw [this]
          exact h.trans (List.sublist_append_left pre [s])
        · have : select_step sel v = sel ++ [s] := by simp [select_step, hv, hmem]
          rw [this]
          exact List.Sublist.append h (List.Sublist.refl [s])
      have := ih (select_step sel v) (pre ++ [s]) hstep
      simpa [hv, List.append_assoc] using this

/-- The dedup loop preserves freedom from duplicates. -/
theorem foldl_select_step_nodup (vals : List String) :
    ∀ sel : List RandomScenario, sel.Nodup →
      (List.foldl select_step sel vals).Nodup := by
  induction vals with
  | nil =>
    intro sel h
    simpa using h
  | cons v vs ih =>
    intro sel h
    apply ih
    unfold select_step
    cases hv : scenario_from_value v with
    | none => exact h
    | some s =>
      by_cases hmem : s ∈ sel
      · simpa [hmem] using h
      · simp only [if_neg hmem]
        simp [List.nodup_append, h, hmem]

/-- Values with no known-scenario counterpart leave the dedup loop empty. -/
theorem dedup_selected_all_unknown (vals : List String)
    (h : ∀ v ∈ vals, scenario_from_value v = none) :
    dedup_selected vals = [] := by
  have key : ∀ l : List String, (∀ v ∈ l, scenario_from_value v = none) →
      ∀ sel : List RandomScenario, List.foldl select_step sel l = sel := by
    intro l
    induction l with
    | nil =>
      intro _ sel
      rfl
    | cons v vs ih =>
      intro hl sel
      have hv : scenario_from_value v = none := hl v (by simp)
      have hstep : select_step sel v = sel := by simp [select_step, hv]
      simp only [List.foldl_cons, hstep]
      exact ih (fun w hw => hl w (by simp [hw])) sel
  exact key vals h []

/-- Freedom from duplicates survives a conditional filter. -/
theorem nodup_ite_filter {α : Type} (c : Prop) [Decidable c] (p : α → Bool)
    (l : List α) (h : l.Nodup) : (if c then l.filter p else l).Nodup := by
  split
  · exact h.filter p
  · exact h

/-- Non-membership survives a conditional filter. -/
theorem not_mem_ite_filter {α : Type} (c : Prop) [Decidable c] (p : α → Bool)
    (l : List α) (a : α) (h : a ∉ l) : a ∉ if c then l.filter p else l := by
  split
  · intro hc
    exact h ((List.filter_sublist l).subset hc)
  · exact h

/-- C3 counterexample: a supplied scenario list whose intersection with the
known scenario set is empty does NOT produce the invalid-configuration
failure; scenario resolution silently falls back to the full catalog and
succeeds (here returning the `standard` scenario for 5 players). -/
theorem resolve_random_scenario_unknown_fallback_counterexample :
    scenario_from_value "bogus" = none ∧ scenario_from_value "junk" = none ∧
    resolve_random_scenario 5 (some ["bogus", "junk"]) 0 = .ok RandomScenario.standard := by
  refine ⟨rfl, rfl, rfl⟩

/-- C3 (amended): scenario resolution deduplicates the supplied labels
preserving first-seen order and intersects them with the known scenario set;
when no list is supplied — and likewise when the supplied list has empty
intersection with the known set, which silently falls back rather than
failing — the full known set is used; `multi_spy` is removed when the player
count is at most 3 and `one_outlier_card` when it is below 2; the
invalid-configuration failure occurs exactly when the resulting candidate
set is empty, and otherwise one candidate is picked. -/
theorem resolve_random_scenario_spec (n : Int) (vals : List String) (pick : Nat) :
    ((∀ v ∈ vals, scenario_from_value v = none) →
      resolve_candidates n (some vals) = resolve_candidates n none) ∧
    (dedup_selected vals).Sublist (vals.filterMap scenario_from_value) ∧
    (resolve_candidates n (some vals)).Nodup ∧
    (n ≤ 3 → RandomScenario.multi_spy ∉ resolve_candidates n (some vals)) ∧
    (n < 2 → RandomScenario.one_outlier_card ∉ resolve_candidates n (some vals)) ∧
    (resolve_candidates n (some vals) = [] ↔
      resolve_random_scenario n (some vals) pick =
        .error "No valid random scenarios available") ∧
    (∀ s, resolve_random_scenario n (some vals) pick = .ok s →
      s ∈ resolve_candidates n (some vals)) := by
  refine ⟨?_, ?_, ?_, ?_, ?_, ?_, ?_⟩
  · intro h
    rw [resolve_candidates, resolve_candidates]
    rw [dedup_selected_all_unknown vals h]
  · simpa using foldl_select_step_sublist vals [] [] (List.Sublist.refl [])
  · rw [resolve_candidates]
    apply nodup_ite_filter
    apply nodup_ite_filter
    by_cases hd : dedup_selected vals = []
    · rw [if_pos hd]
      decide
    · rw [if_neg hd]
      exact foldl_select_step_nodup vals [] (by simp)
  · intro hn
    rw [resolve_candidates]
    apply not_mem_ite_filter
    by_cases hmem : RandomScenario.multi_spy ∈
        (if dedup_selected vals = [] then allScenarios else dedup_selected vals)
    · rw [if_pos ⟨hn, hmem⟩]
      simp
    · rw [if_neg (fun hc => hmem hc.2)]
      exact hmem
  · intro hn
    rw [resolve_candidates]
    by_cases hmem : RandomScenario.one_outlier_card ∈
        (if (n ≤ 3 ∧ RandomScenario.multi_spy ∈
              (if dedup_selected vals = [] then allScenarios else dedup_selected vals)) then
          (if dedup_selected vals = [] then allScenarios else dedup_selected vals).filter
            (fun s => s ≠ RandomScenario.multi_spy)
        else (if dedup_selected vals = [] then allScenarios else dedup_selected vals))
    · rw [if_pos ⟨hn, hmem⟩]
      simp
    · rw [if_neg (fun hc => hmem hc.2)]
      exact hmem
  · rw [resolve_random_scenario]
    constructor
    · intro h
      rw [if_pos h]
    · intro h
      by_contra hne
      rw [if_neg hne] at h
      exact Except.noConfusion h
  · intro s hs
    rw [resolve_random_scenario] at hs
    by_cases hne : resolve_candidates n (some vals) = []
    · rw [if_pos hne] at hs
      exact Except.noConfusion hs
    · rw [if_neg hne] at hs
      have hlen : 0 < (resolve_candidates n (some vals)).length :=
        List.length_pos.mpr hne
      have hlt : pick % (resolve_candidates n (some vals)).length <
          (resolve_candidates n (some vals)).length := Nat.mod_lt _ hlen
      have hget := List.getD_eq_getElem (resolve_candidates n (some vals))
        RandomScenario.standard hlt
      rw [hget] at hs
      cases hs
      exact List.getElem_mem _

/-- Closed instance of `resolve_random_scenario_spec` with the conditional
parts discharged on concrete data (player count 1, a list holding one
unknown and one duplicated known label). -/
theorem resolve_random_scenario_spec_witness :
    resolve_candidates 1 (some ["bogus"]) = resolve_candidates 1 none ∧
    (dedup_selected ["same_card", "bogus", "same_card"]).Sublist
      (["same_card", "bogus", "same_card"].filterMap scenario_from_value) ∧
    (resolve_candidates 1 (some ["same_card", "bogus", "same_card"])).Nodup ∧
    RandomScenario.multi_spy ∉ resolve_candidates 1 (some ["same_card", "bogus", "same_card"]) ∧
    RandomScenario.one_outlier_card ∉
      resolve_candidates 1 (some ["same_card", "bogus", "same_card"]) ∧
    resolve_random_scenario 1 (some ["multi_spy"]) 0 =
      .error "No valid random scenarios available" ∧
    RandomScenario.same_card ∈ resolve_candidates 1 (some ["same_card", "bogus", "same_card"]) := by
  have h1 := resolve_random_scenario_spec 1 ["bogus"] 0
  have h2 := resolve_random_scenario_spec 1 ["same_card", "bogus", "same_card"] 0
  have h3 := resolve_random_scenario_spec 1 ["multi_spy"] 0
  refine ⟨h1.1 (by decide), h2.2.1, h2.2.2.1, h2.2.2.2.1 (by decide),
    h2.2.2.2.2.1 (by decide), h3.2.2.2.2.2.1.mp (by decide),
    h2.2.2.2.2.2.2 RandomScenario.same_card (by rfl)⟩

/-- On a well-formed timer-enabled offline session the normalization pass
repairs nothing and reports the timer usable. -/
theorem normalize_offline_id (s : OfflineSession) (ts : Int)
    (hen : s.timer_enabled = true)
    (hts : s.turn_time_seconds = some ts)
    (h5 : MIN_TURN_TIME_SECONDS ≤ ts) (h30 : ts ≤ MAX_TURN_TIME_SECONDS)
    (hord : s.players_order ≠ [])
    (h0 : 0 ≤ s.current_turn_index)
    (hlt : s.current_turn_index < (s.players_order.length : Int)) :
    normalize_offline_turn_state s = (s, true) := by
  have hlen : s.players_order.length ≠ 0 :=
    fun h => hord (List.length_eq_zero.mp h)
  have hclamp : clamp_turn_index s.current_turn_index s.players_order.length =
      s.current_turn_index := by
    rw [clamp_turn_index]
    rw [if_neg hlen]
    omega
  have hcond : ¬ (ts < MIN_TURN_TIME_SECONDS ∨ ts > MAX_TURN_TIME_SECONDS) := by
    simp only [MIN_TURN_TIME_SECONDS, MAX_TURN_TIME_SECONDS] at h5 h30 ⊢
    omega
  have heta : ({ s with current_turn_index := s.current_turn_index } : OfflineSession) = s := rfl
  simp only [normalize_offline_turn_state, hen, hts]
  simp only [if_neg hcond]
  simp only [ensure_offline_players_order, if_pos hord]
  simp only [hclamp, heta]
  simp only [if_neg hord]
  rfl

/-- On a well-formed timer-enabled room the normalization pass repairs
nothing and reports the timer usable. -/
theorem normalize_room_id (room : RoomSession) (ts : Int)
    (hen : room.timer_enabled = true)
    (hts : room.turn_time_seconds = some ts)
    (h5 : MIN_TURN_TIME_SECONDS ≤ ts) (h30 : ts ≤ MAX_TURN_TIME_SECONDS)
    (hord : room.players_order ≠ [])
    (h0 : 0 ≤ room.current_turn_index)
    (hlt : room.current_turn_index < (room.players_order.length : Int)) :
    normalize_room_turn_state room = (room, true) := by
  have hlen : room.players_order.length ≠ 0 :=
    fun h => hord (List.length_eq_zero.mp h)
  have hclamp : clamp_turn_index room.current_turn_index room.players_order.length =
      room.current_turn_index := by
    rw [clamp_turn_index]
    rw [if_neg hlen]
    omega
  have hcond : ¬ (ts < MIN_TURN_TIME_SECONDS ∨ ts > MAX_TURN_TIME_SECONDS) := by
    simp only [MIN_TURN_TIME_SECONDS, MAX_TURN_TIME_SECONDS] at h5 h30 ⊢
    omega
  have heta : ({ room with current_turn_index := room.current_turn_index } : RoomSession) = room := rfl
  simp only [normalize_room_turn_state, hen, hts]
  simp only [if_neg hcond]
  simp only [ensure_room_players_order, if_pos hord]
  simp only [hclamp, heta]
  simp only [if_neg hord]
  rfl

/-- C2: with the timer active (state `turn_loop_active`, active flag set,
valid duration, non-empty turn order, in-range index, start stamp `t0`),
turn advancement is a no-op while `now - t0 < turnSeconds`, and otherwise
moves the index by `floor((now - t0)/turnSeconds)` modulo the order length
and re-bases the start stamp by exactly that many whole periods (never to
`now`) — identically for offline sessions and rooms. -/
theorem advance_turn_drift_free
    (s : OfflineSession) (room : RoomSession) (now t0 u0 : ℚ) (ts tr : Int)
    (hs1 : s.state = TURN_STATE_ACTIVE) (hs2 : s.turn_active = true)
    (hs3 : s.timer_enabled = true) (hs4 : s.turn_time_seconds = some ts)
    (hs5 : MIN_TURN_TIME_SECONDS ≤ ts) (hs6 : ts ≤ MAX_TURN_TIME_SECONDS)
    (hs7 : s.turn_started_at = some t0) (hs8 : s.players_order ≠ [])
    (hs9 : 0 ≤ s.current_turn_index)
    (hs10 : s.current_turn_index < (s.players_order.length : Int))
    (hr1 : room.state = ROOM_STATE_STARTED) (hr2 : room.turn_state = TURN_STATE_ACTIVE)
    (hr3 : room.turn_active = true) (hr4 : room.timer_enabled = true)
    (hr5 : room.turn_time_seconds = some tr)
    (hr6 : MIN_TURN_TIME_SECONDS ≤ tr) (hr7 : tr ≤ MAX_TURN_TIME_SECONDS)
    (hr8 : room.turn_started_at = some u0) (hr9 : room.players_order ≠ [])
    (hr10 : 0 ≤ room.current_turn_index)
    (hr11 : room.current_turn_index < (room.players_order.length : Int)) :
    ((now - t0 < (ts : ℚ) → advance_offline_turn s now = s) ∧
     ((ts : ℚ) ≤ now - t0 →
       advance_offline_turn s now =
         { s with
             current_turn_index :=
               (s.current_turn_index + ⌊(now - t0) / (ts : ℚ)⌋) %
                 (s.players_order.length : Int)
             turn_started_at :=
               some (t0 + (⌊(now - t0) / (ts : ℚ)⌋ : ℚ) * (ts : ℚ)) })) ∧
    ((now - u0 < (tr : ℚ) → advance_room_turn room now = room) ∧
     ((tr : ℚ) ≤ now - u0 →
       advance_room_turn room now =
         { room with
             current_turn_index :=
               (room.current_turn_index + ⌊(now - u0) / (tr : ℚ)⌋) %
                 (room.players_order.length : Int)
             turn_started_at :=
               some (u0 + (⌊(now - u0) / (tr : ℚ)⌋ : ℚ) * (tr : ℚ)) })) := by
  have hspos : (0 : ℚ) < (ts : ℚ) := by
    unfold MIN_TURN_TIME_SECONDS at hs5
    exact_mod_cast lt_of_lt_of_le (by norm_num) hs5
  have hrpos : (0 : ℚ) < (tr : ℚ) := by
    unfold MIN_TURN_TIME_SECONDS at hr6
    exact_mod_cast lt_of_lt_of_le (by norm_num) hr6
  have hnorms := normalize_offline_id s ts hs3 hs4 hs5 hs6 hs8 hs9 hs10
  have hnormr := normalize_room_id room tr hr4 hr5 hr6 hr7 hr9 hr10 hr11
  constructor
  · simp only [advance_offline_turn]
    rw [if_neg (by simp [hs1, hs2])]
    rw [hnorms]
    simp only [hs7, hs4]
    rw [if_neg (show ¬(true = false) by simp)]
    constructor
    · intro h
      rw [if_pos h]
    · intro h
      rw [if_neg (not_lt.mpr h)]
      have hge1 : 1 ≤ ⌊(now - t0) / (ts : ℚ)⌋ :=
        Int.le_floor.mpr (by exact_mod_cast (one_le_div hspos).mpr h)
      rw [if_neg (by omega)]
  · simp only [advance_room_turn]
    rw [if_neg (by simp [hr1, hr2, hr3])]
    rw [hnormr]
    simp only [hr8, hr5]
    rw [if_neg (show ¬(true = false) by simp)]
    constructor
    · intro h
      rw [if_pos h]
    · intro h
      rw [if_neg (not_lt.mpr h)]
      have hge1 : 1 ≤ ⌊(now - u0) / (tr : ℚ)⌋ :=
        Int.le_floor.mpr (by exact_mod_cast (one_le_div hrpos).mpr h)
      rw [if_neg (by omega)]

/-- Closed instance of `advance_turn_drift_free`: polling at `now = 17` with
5-second turns started at 0 advances the offline index by exactly
`floor(17/5) = 3` steps and re-bases the stamp to 15 (not 17), and likewise
for the room (index `(1 + 3) mod 4 = 0`). -/
theorem advance_turn_drift_free_witness :
    (advance_offline_turn sessionTimer 17).current_turn_index = 3 ∧
    (advance_offline_turn sessionTimer 17).turn_started_at = some 15 ∧
    (advance_room_turn roomTimer 17).current_turn_index = 0 ∧
    (advance_room_turn roomTimer 17).turn_started_at = some 15 := by
  have h := advance_turn_drift_free sessionTimer roomTimer 17 0 0 5 5
    rfl rfl rfl rfl (by decide) (by decide) rfl (by decide) (by decide) (by decide)
    rfl rfl rfl rfl rfl (by decide) (by decide) rfl (by decide) (by decide) (by decide)
  refine ⟨?_, ?_, ?_, ?_⟩
  · rw [h.1.2 (by norm_num)]
    norm_num [sessionTimer]
  · rw [h.1.2 (by norm_num)]
    norm_num
  · rw [h.2.2 (by norm_num)]
    norm_num [roomTimer]
  · rw [h.2.2 (by norm_num)]
    norm_num

/-- C5: while the reveal pointer is below the player count, `close`
increments the pointer and reports `finished = false` with the next seat;
once the pointer equals the player count it reports `finished = true` with a
starter seat in `1..playerCount` drawn uniformly (any `randbelow` outcome
`below < playerCount` yields seat `below + 1`), moving the session to
`ready_to_start` when the timer is enabled and otherwise directly to
`finished` with turns marked completed. -/
theorem offline_close_spec (s : OfflineSession) (below : Int) :
    (s.current_player_number < s.player_count →
      offline_close s below =
        ({ s with current_player_number := s.current_player_number + 1 },
         { finished := false
           current_player_number := some (s.current_player_number + 1)
           starter_player_number := none })) ∧
    (s.current_player_number = s.player_count → 0 ≤ below →
      below < s.player_count →
      (1 ≤ below + 1 ∧ below + 1 ≤ s.player_count) ∧
      (offline_close s below).2 =
        { finished := true, current_player_number := none
          starter_player_number := some (below + 1) } ∧
      (offline_close s below).1.starter_player_number = some (below + 1) ∧
      (s.timer_enabled = true →
        (offline_close s below).1.state = TURN_STATE_READY_TO_START) ∧
      (s.timer_enabled = false →
        (offline_close s below).1.state = TURN_STATE_FINISHED ∧
        (offline_close s below).1.turns_completed = true)) := by
  constructor
  · intro h
    rw [offline_close, if_pos h]
  · intro heq h0 hlt
    have hnl : ¬ s.current_player_number < s.player_count := by omega
    refine ⟨by omega, ?_, ?_, ?_, ?_⟩
    · rw [offline_close, if_neg hnl]
      by_cases ht : s.timer_enabled
      · rw [if_pos ht]
        rfl
      · rw [if_neg ht]
        rfl
    · rw [offline_close, if_neg hnl]
      by_cases ht : s.timer_enabled
      · rw [if_pos ht]
        rfl
      · rw [if_neg ht]
        rfl
    · intro ht
      rw [offline_close, if_neg hnl, if_pos ht]
    · intro ht
      rw [offline_close, if_neg hnl, if_neg (by simp [ht])]
      exact ⟨rfl, rfl⟩

/-- Closed instance of `offline_close_spec`: a mid-reveal close advances the
pointer from 2 to 3, and the final close (pointer 4 of 4, draw 2) reports
starter seat 3 and moves the timer-enabled session to `ready_to_start`. -/
theorem offline_close_spec_witness :
    offline_close { sessionTimer with current_player_number := 2 } 3 =
      ({ sessionTimer with current_player_number := 3 },
       { finished := false, current_player_number := some 3
         starter_player_number := none }) ∧
    ((1 ≤ (2 : Int) + 1 ∧ (2 : Int) + 1 ≤ 4) ∧
      (offline_close sessionTimer 2).2 =
        { finished := true, current_player_number := none
          starter_player_number := some 3 } ∧
      (offline_close sessionTimer 2).1.starter_player_number = some 3 ∧
      (offline_close sessionTimer 2).1.state = TURN_STATE_READY_TO_START) := by
  have h1 := (offline_close_spec { sessionTimer with current_player_number := 2 } 3).1
    (by decide)
  have h2 := (offline_close_spec sessionTimer 2).2 (by decide) (by decide) (by decide)
  refine ⟨?_, ⟨by decide, by decide⟩, ?_, ?_, ?_⟩
  · rw [h1]
    decide
  · rw [h2.2.1]
    decide
  · rw [h2.2.2.1]
    decide
  · exact h2.2.2.2.1 rfl

/-- C8: the cleanup sweep keeps an offline session exactly when it is not
older than the TTL (60 minutes), keeps a room exactly when it is not both
older than the TTL and still waiting, and in particular never removes a
started or paused room regardless of age. -/
theorem cleanup_sessions_spec (sessions : List (String × OfflineSession))
    (rooms : List (String × RoomSession)) (now : ℚ) :
    (∀ pr : String × OfflineSession,
      pr ∈ (cleanup_sessions sessions rooms now).1 ↔
        pr ∈ sessions ∧ ¬ now - pr.2.created_at > APP_TTL_MINUTES * 60) ∧
    (∀ pr : String × RoomSession,
      pr ∈ (cleanup_sessions sessions rooms now).2 ↔
        pr ∈ rooms ∧ ¬ (now - pr.2.created_at > APP_TTL_MINUTES * 60 ∧
          pr.2.state = ROOM_STATE_WAITING)) ∧
    (∀ pr : String × RoomSession, pr ∈ rooms →
      pr.2.state = ROOM_STATE_STARTED ∨ pr.2.state = ROOM_STATE_PAUSED →
      pr ∈ (cleanup_sessions sessions rooms now).2) := by
  refine ⟨?_, ?_, ?_⟩
  · intro pr
    simp only [cleanup_sessions, List.mem_filter, decide_eq_true_eq]
  · intro pr
    simp only [cleanup_sessions, List.mem_filter, decide_eq_true_eq]
  · intro pr hmem hstate
    simp only [cleanup_sessions, List.mem_filter]
    refine ⟨hmem, ?_⟩
    rw [decide_eq_true_eq]
    intro hcontra
    rcases hstate with h | h
    · exact absurd (h.symm.trans hcontra.2) (by decide)
    · exact absurd (h.symm.trans hcontra.2) (by decide)

/-- Closed instance of `cleanup_sessions_spec` at `now = 3601` seconds: the
hour-old session and the hour-old waiting room are gone, the younger session
stays, and the equally hour-old started room stays. -/
theorem cleanup_sessions_spec_witness :
    ("s1", sessionTimer) ∉
      (cleanup_sessions [("s1", sessionTimer), ("s2", { sessionTimer with created_at := 100 })]
        [("r1", roomWaiting), ("r2", roomTimer)] 3601).1 ∧
    ("s2", { sessionTimer with created_at := 100 }) ∈
      (cleanup_sessions [("s1", sessionTimer), ("s2", { sessionTimer with created_at := 100 })]
        [("r1", roomWaiting), ("r2", roomTimer)] 3601).1 ∧
    ("r1", roomWaiting) ∉
      (cleanup_sessions [("s1", sessionTimer), ("s2", { sessionTimer with created_at := 100 })]
        [("r1", roomWaiting), ("r2", roomTimer)] 3601).2 ∧
    ("r2", roomTimer) ∈
      (cleanup_sessions [("s1", sessionTimer), ("s2", { sessionTimer with created_at := 100 })]
        [("r1", roomWaiting), ("r2", roomTimer)] 3601).2 := by
  have h := cleanup_sessions_spec
    [("s1", sessionTimer), ("s2", { sessionTimer with created_at := 100 })]
    [("r1", roomWaiting), ("r2", roomTimer)] 3601
  refine ⟨?_, ?_, ?_, ?_⟩
  · intro hc
    have hk := ((h.1 _).mp hc).2
    apply hk
    norm_num [sessionTimer, APP_TTL_MINUTES]
  · exact (h.1 _).mpr ⟨by simp, by norm_num [sessionTimer, APP_TTL_MINUTES]⟩
  · intro hc
    have hk := ((h.2.1 _).mp hc).2
    apply hk
    constructor
    · norm_num [roomWaiting, APP_TTL_MINUTES]
    · rfl
  · exact h.2.2 _ (by simp) (Or.inl rfl)

/-- `ensure_offline_players_order` never touches the timer fields. -/
theorem ensure_offline_tts (x : OfflineSession) :
    (ensure_offline_players_order x).turn_time_seconds = x.turn_time_seconds := by
  rw [ensure_offline_players_order]
  split
  · rfl
  · split
    · rfl
    · rfl

/-- C9: at creation time, `normalize_timer_settings` clears the timer fields
when the timer is disabled, defaults an omitted duration to 8 seconds, and
rejects a supplied duration outside `[5, 30]` with an invalid-configuration
error; at state-normalization time (run on every status read) a missing or
out-of-range duration is instead silently repaired to the 8-second default
(the normalization pass is a total function and never fails), and a disabled
timer clears the duration and timer fields. -/
theorem timer_settings_spec (t : Int) (u : Option Int) (s : OfflineSession) :
    (normalize_timer_settings false u = .ok (false, none)) ∧
    (normalize_timer_settings true none = .ok (true, some 8)) ∧
    (t < 5 ∨ t > 30 →
      normalize_timer_settings true (some t) = .error "Неверное значение времени хода") ∧
    (5 ≤ t → t ≤ 30 → normalize_timer_settings true (some t) = .ok (true, some t)) ∧
    (DEFAULT_TURN_TIME_SECONDS = 8 ∧ MIN_TURN_TIME_SECONDS = 5 ∧
      MAX_TURN_TIME_SECONDS = 30) ∧
    (s.timer_enabled = true → s.turn_time_seconds = none →
      (normalize_offline_turn_state s).1.turn_time_seconds = some 8) ∧
    (s.timer_enabled = true → s.turn_time_seconds = some t → t < 5 ∨ t > 30 →
      (normalize_offline_turn_state s).1.turn_time_seconds = some 8) ∧
    (s.timer_enabled = false →
      (normalize_offline_turn_state s).1.turn_time_seconds = none ∧
      (normalize_offline_turn_state s).1.turn_started_at = none ∧
      (normalize_offline_turn_state s).1.turn_active = false) := by
  refine ⟨rfl, rfl, ?_, ?_, ⟨rfl, rfl, rfl⟩, ?_, ?_, ?_⟩
  · intro hrange
    rw [normalize_timer_settings]
    rw [if_neg (by simp)]
    simp only [Option.getD_some]
    have hcond : t < MIN_TURN_TIME_SECONDS ∨ t > MAX_TURN_TIME_SECONDS := by
      simp only [MIN_TURN_TIME_SECONDS, MAX_TURN_TIME_SECONDS]
      omega
    rw [if_pos hcond]
  · intro h5 h30
    rw [normalize_timer_settings]
    rw [if_neg (by simp)]
    simp only [Option.getD_some]
    have hcond : ¬ (t < MIN_TURN_TIME_SECONDS ∨ t > MAX_TURN_TIME_SECONDS) := by
      simp only [MIN_TURN_TIME_SECONDS, MAX_TURN_TIME_SECONDS]
      omega
    rw [if_neg hcond]
  · intro hen hnone
    rw [normalize_offline_turn_state]
    rw [if_neg (by simp [hen])]
    simp only [hnone]
    split
    · simp [ensure_offline_tts, DEFAULT_TURN_TIME_SECONDS]
    · simp [ensure_offline_tts, DEFAULT_TURN_TIME_SECONDS]
  · intro hen hsome hrange
    rw [normalize_offline_turn_state]
    rw [if_neg (by simp [hen])]
    simp only [hsome]
    have hcond : t < MIN_TURN_TIME_SECONDS ∨ t > MAX_TURN_TIME_SECONDS := by
      simp only [MIN_TURN_TIME_SECONDS, MAX_TURN_TIME_SECONDS]
      omega
    simp only [if_pos hcond]
    split
    · simp [ensure_offline_tts, DEFAULT_TURN_TIME_SECONDS]
    · simp [ensure_offline_tts, DEFAULT_TURN_TIME_SECONDS]
  · intro hdis
    rw [normalize_offline_turn_state]
    rw [if_pos (by simp [hdis])]
    exact ⟨rfl, rfl, rfl⟩

/-- Closed instance of `timer_settings_spec`: duration 40 is rejected at
creation, duration 12 is accepted, a session with duration 40 is repaired to
8 by normalization, and a disabled timer is cleared. -/
theorem timer_settings_spec_witness :
    normalize_timer_settings false (some 12) = .ok (false, none) ∧
    normalize_timer_settings true none = .ok (true, some 8) ∧
    normalize_timer_settings true (some 40) = .error "Неверное значение времени хода" ∧
    normalize_timer_settings true (some 12) = .ok (true, some 12) ∧
    (normalize_offline_turn_state { sessionTimer with turn_time_seconds := some 40
      }).1.turn_time_seconds = some 8 ∧
    (normalize_offline_turn_state { sessionTimer with timer_enabled := false
      }).1.turn_time_seconds = none := by
  have h40 := timer_settings_spec 40 (some 12) { sessionTimer with turn_time_seconds := some 40 }
  have hdis := timer_settings_spec 12 (some 12) { sessionTimer with timer_enabled := false }
  exact ⟨h40.1, h40.2.1, h40.2.2.1 (by omega), hdis.2.2.2.1 (by omega) (by omega),
    h40.2.2.2.2.2.2.1 rfl rfl (by omega), (hdis.2.2.2.2.2.2.2 rfl).1⟩

/-- The starter reassignment never touches the lifecycle state. -/
theorem remove_starter_step_state (room : RoomSession) (u : PlayerId) :
    (remove_starter_step room u).state = room.state := by
  rw [remove_starter_step]
  split
  · rfl
  · rfl

/-- The index adjustment never touches the lifecycle state. -/
theorem remove_index_step_state (room : RoomSession) (ri : Option Nat) :
    (remove_index_step room ri).state = room.state := by
  rw [remove_index_step.eq_def]
  split
  · rfl
  · rfl

/-- The ownership reassignment never touches the lifecycle state. -/
theorem remove_owner_step_state (room : RoomSession) (u : PlayerId) :
    (remove_owner_step room u).state = room.state := by
  rw [remove_owner_step.eq_def]
  split
  · simp only []
    split
    · rfl
    · rfl
  · rfl

/-- The pause step leaves the room paused or with its previous state. -/
theorem pause_room_state_or (room : RoomSession) (msg : String) (now : ℚ) :
    (pause_room_after_participant_change room msg now).state = ROOM_STATE_PAUSED ∨
    (pause_room_after_participant_change room msg now).state = room.state := by
  rw [pause_room_after_participant_change, set_room_status_message]
  split
  · exact Or.inl rfl
  · exact Or.inr rfl

/-- Removing a participant never moves a room back to the waiting state. -/
theorem remove_room_participant_state_ne (room : RoomSession) (u : PlayerId)
    (msg : String) (now : ℚ) (h : room.state ≠ ROOM_STATE_WAITING) :
    (remove_room_participant room u msg now).1.state ≠ ROOM_STATE_WAITING := by
  rw [remove_room_participant]
  split
  · exact h
  · rcases pause_room_state_or
      (remove_owner_step (remove_index_step
        (remove_starter_step (remove_entries_step room u) u)
        (room.players_order.indexOf? u)) u) _ now with hp | hp
    · rw [hp]
      decide
    · rw [hp, remove_owner_step_state, remove_index_step_state,
        remove_starter_step_state]
      exact h

/-- The stale-participant sweep never moves a room back to the waiting
state. -/
theorem drop_stale_state_ne_waiting (room : RoomSession) (now : ℚ)
    (h : room.state ≠ ROOM_STATE_WAITING) :
    (drop_stale_room_players room now).1.state ≠ ROOM_STATE_WAITING := by
  rw [drop_stale_room_players]
  rw [if_neg h]
  have key : ∀ (l : List PlayerId) (r : RoomSession), r.state ≠ ROOM_STATE_WAITING →
      (l.foldl (fun r uid => (remove_room_participant r uid "вышел из комнаты" now).1)
        r).state ≠ ROOM_STATE_WAITING := by
    intro l
    induction l with
    | nil =>
      intro r hr
      exact hr
    | cons x xs ih =>
      intro r hr
      exact ih _ (remove_room_participant_state_ne r x _ now hr)
  exact key _ room h

/-- Touching a heartbeat never changes the roster. -/
theorem touch_room_user_players (room : RoomSession) (u : PlayerId) (now : ℚ) :
    (touch_room_user room u now).players = room.players := by
  rw [touch_room_user]
  split
  · rfl
  · rfl

/-- Any successful join happened on a waiting room, and either left the
roster unchanged (caller already present) or appended the caller under a
strict capacity check. -/
theorem room_join_ok_shape (room : RoomSession) (uid : Int) (entry : PlayerEntry)
    (rf rg : Option String) (now : ℚ) (r : RoomSession)
    (hok : room_join (some room) uid entry rf rg now = .ok r) :
    room.state = ROOM_STATE_WAITING ∧
    (((alist_get room.players (.user uid)).isSome ∧ r.players = room.players) ∨
     (alist_get room.players (.user uid) = none ∧
      (room.players.length : Int) < room.player_limit ∧
      r.players = room.players ++ [(.user uid, entry)])) := by
  by_cases hstate : room.state = ROOM_STATE_WAITING
  · refine ⟨hstate, ?_⟩
    simp only [room_join] at hok
    rw [drop_stale_room_players, if_pos hstate] at hok
    rw [if_neg (by simp)] at hok
    rw [show ((room, false) : RoomSession × Bool).1 = room from rfl] at hok
    split at hok
    · exact Except.noConfusion hok
    · split at hok
      · exact Except.noConfusion hok
      · split at hok
        · exact Except.noConfusion hok
        · split at hok
          · exact Except.noConfusion hok
          · rename_i hnotfull
            by_cases hnew : alist_get room.players (.user uid) = none
            · right
              rw [if_pos hnew] at hok
              cases hok
              refine ⟨hnew, ?_, ?_⟩
              · by_contra hge
                exact hnotfull ⟨hnew, by omega⟩
              · rw [touch_room_user_players]
            · left
              rw [if_neg hnew] at hok
              cases hok
              refine ⟨Option.ne_none_iff_isSome.mp hnew, ?_⟩
              rw [touch_room_user_players]
  · exfalso
    have hpres := drop_stale_state_ne_waiting room now hstate
    simp only [room_join] at hok
    repeat' split at hok
    all_goals
      first
      | exact Except.noConfusion hok
      | tauto

/-- A dict assignment grows an association list by at most one entry. -/
theorem alist_set_length_le {β : Type} (l : List (PlayerId × β)) (k : PlayerId)
    (v : β) : (alist_set l k v).length ≤ l.length + 1 := by
  rw [alist_set]
  split
  · simp
  · simp

/-- Bot filling keeps the roster within capacity. -/
theorem add_room_bots_capacity (room : RoomSession) (req : Int) (ids : Nat → String)
    (hcap : (room.players.length : Int) ≤ room.player_limit) :
    (((add_room_bots room req ids).1.players.length : Int) ≤ room.player_limit) := by
  rw [add_room_bots.eq_def]
  simp only []
  split
  · exact hcap
  · have key : ∀ (l : List Nat) (r : RoomSession),
        (l.foldl (fun r offset =>
          { r with
              players := alist_set r.players (.bot (ids offset))
                (build_bot_entry (next_bot_number room + offset)) }) r).players.length ≤
          r.players.length + l.length := by
      intro l
      induction l with
      | nil =>
        intro r
        simp
      | cons x xs ih =>
        intro r
        simp only [List.foldl_cons, List.length_cons]
        have h1 := ih { r with
          players := alist_set r.players (.bot (ids x))
            (build_bot_entry (next_bot_number room + x)) }
        have h2 : ({ r with
            players := alist_set r.players (.bot (ids x))
              (build_bot_entry (next_bot_number room + x)) } : RoomSession).players =
            alist_set r.players (.bot (ids x)) (build_bot_entry (next_bot_number room + x)) :=
          rfl
        rw [h2] at h1
        have h3 := alist_set_length_le r.players (PlayerId.bot (ids x))
          (build_bot_entry (next_bot_number room + x))
        omega
    have h1 := key (List.range (min (max req 0)
        (max 0 (room.player_limit - (room.players.length : Int)))).toNat) room
    rw [List.length_range] at h1
    have h2 : min (max req 0) (max 0 (room.player_limit - (room.players.length : Int))) ≤
        max 0 (room.player_limit - (room.players.length : Int)) := min_le_right _ _
    rw [max_eq_right (by omega : (0 : Int) ≤ room.player_limit - (room.players.length : Int))]
      at h2
    simp only []
    omega

/-- C7: joining fails when the room is missing or not waiting, and when the
roster already holds capacity-many participants unless the caller is already
a member (idempotent rejoin, no duplicate entry); consequently the roster
never exceeds capacity after a join, and bot addition also keeps the roster
within capacity (it caps the added bots at the free slots). -/
theorem room_join_capacity_spec (room : RoomSession) (uid : Int)
    (entry : PlayerEntry) (rf rg : Option String) (req : Int)
    (ids : Nat → String) (now : ℚ) :
    (room_join none uid entry rf rg now = .error "Комната не найдена") ∧
    (room.state ≠ ROOM_STATE_WAITING →
      ∀ r, room_join (some room) uid entry rf rg now ≠ .ok r) ∧
    (room.state = ROOM_STATE_WAITING → room.format_mode = "online" →
      alist_get room.players (.user uid) = none →
      (room.players.length : Int) ≥ room.player_limit →
      room_join (some room) uid entry none none now = .error "Комната заполнена") ∧
    (room.state = ROOM_STATE_WAITING → room.format_mode = "online" →
      (alist_get room.players (.user uid)).isSome →
      ∃ r, room_join (some room) uid entry none none now = .ok r ∧
        r.players = room.players) ∧
    ((room.players.length : Int) ≤ room.player_limit →
      ∀ r, room_join (some room) uid entry rf rg now = .ok r →
        (r.players.length : Int) ≤ room.player_limit) ∧
    ((room.players.length : Int) ≤ room.player_limit →
      (((add_room_bots room req ids).1.players.length : Int) ≤ room.player_limit)) := by
  refine ⟨rfl, ?_, ?_, ?_, ?_, ?_⟩
  · intro hstate r hok
    exact hstate (room_join_ok_shape room uid entry rf rg now r hok).1
  · intro hstate hformat hnew hfull
    simp only [room_join]
    rw [drop_stale_room_players, if_pos hstate]
    rw [if_neg (by simp)]
    rw [show ((room, false) : RoomSession × Bool).1 = room from rfl]
    rw [if_neg (by simp [hformat])]
    rw [if_neg (by simp)]
    rw [if_neg (by simp [hstate])]
    rw [if_pos ⟨hnew, hfull⟩]
  · intro hstate hformat hmem
    refine ⟨touch_room_user room (.user uid) now, ?_, touch_room_user_players _ _ _⟩
    simp only [room_join]
    rw [drop_stale_room_players, if_pos hstate]
    rw [if_neg (by simp)]
    rw [show ((room, false) : RoomSession × Bool).1 = room from rfl]
    rw [if_neg (by simp [hformat])]
    rw [if_neg (by simp)]
    rw [if_neg (by simp [hstate])]
    rw [if_neg (by rw [Option.isSome_iff_ne_none] at hmem; exact fun hc => hmem hc.1)]
    rw [if_neg (by rw [Option.isSome_iff_ne_none] at hmem; exact hmem)]
  · intro hcap r hok
    rcases (room_join_ok_shape room uid entry rf rg now r hok).2 with
      ⟨_, hsame⟩ | ⟨_, hlt, happ⟩
    · rw [hsame]
      exact hcap
    · rw [happ]
      simp only [List.length_append, List.length_cons, List.length_nil]
      push_cast
      omega
  · intro hcap
    exact add_room_bots_capacity room req ids hcap

/-- Closed instance of `room_join_capacity_spec`: missing room fails; a
started room rejects the join; a full waiting room rejects a newcomer;
member 1 rejoins without duplication; joins and a 5-bot fill request on the
2-of-3 waiting room stay within capacity. -/
theorem room_join_capacity_spec_witness :
    room_join none 9 entryAlice none none 0 = .error "Комната не найдена" ∧
    (∀ r, room_join (some roomTimer) 9 entryAlice none none 0 ≠ .ok r) ∧
    room_join (some { roomWaiting with player_limit := 2 }) 9 entryAlice none none 0 =
      .error "Комната заполнена" ∧
    (∃ r, room_join (some roomWaiting) 1 entryAlice none none 0 = .ok r ∧
      r.players = roomWaiting.players) ∧
    (((add_room_bots roomWaiting 5 (fun n => "b" ++ toString n)).1.players.length : Int) ≤
      roomWaiting.player_limit) := by
  have h1 := room_join_capacity_spec roomTimer 9 entryAlice none none 5
    (fun n => "b" ++ toString n) 0
  have h2 := room_join_capacity_spec { roomWaiting with player_limit := 2 } 9 entryAlice
    none none 5 (fun n => "b" ++ toString n) 0
  have h3 := room_join_capacity_spec roomWaiting 1 entryAlice none none 5
    (fun n => "b" ++ toString n) 0
  exact ⟨h1.1, h1.2.1 (by decide),
    h2.2.2.1 rfl rfl (by decide) (by decide),
    h3.2.2.2.1 rfl rfl (by decide),
    h3.2.2.2.2.2 (by decide)⟩

/-- `random_choice` on a non-empty list returns a member. -/
theorem random_choice_mem (items : List PlayerId) (pick : Nat) (h : items ≠ []) :
    random_choice items pick ∈ items := by
  rw [random_choice, if_neg h]
  have hlt : pick % items.length < items.length :=
    Nat.mod_lt _ (List.length_pos.mpr h)
  rw [List.getD_eq_getElem _ _ hlt]
  exact List.getElem_mem _

/-- `l.index(a)` recovers `a` when `a ∈ l`. -/
theorem getD_indexOf {α : Type} [DecidableEq α] (l : List α) (a d : α) (h : a ∈ l) :
    l.getD (l.indexOf a) d = a := by
  rw [List.getD_eq_getElem l d (List.indexOf_lt_length.mpr h)]
  exact List.getElem_indexOf (List.indexOf_lt_length.mpr h)

/-- C10: after a successful room start or restart, and after the offline
close that finalizes the reveal with the timer enabled, the current turn
index points at the randomly chosen starter inside the fixed turn order, so
the starter holds the first timed turn. -/
theorem starter_first_turn_spec (room : RoomSession) (caller : Int)
    (catalog : List String) (o : DealOracle PlayerId) (pick : Nat) (now : ℚ)
    (s : OfflineSession) (below : Int)
    (hptr : s.current_player_number = s.player_count)
    (h0 : 0 ≤ below) (hlt : below < s.player_count)
    (horder : s.players_order =
      (List.range s.player_count.toNat).map (fun i : Nat => (i : Int) + 1))
    (htimer : s.timer_enabled = true) :
    (∀ res, room_start room caller catalog o pick now = .ok res →
      res.2 ∈ res.1.players_order ∧
      0 ≤ res.1.current_turn_index ∧
      res.1.current_turn_index < (res.1.players_order.length : Int) ∧
      res.1.players_order.getD res.1.current_turn_index.toNat (.user 0) = res.2 ∧
      res.1.starter_user_id = some res.2) ∧
    (∀ res, room_restart room caller catalog o pick now = .ok res →
      res.2 ∈ res.1.players_order ∧
      res.1.players_order.getD res.1.current_turn_index.toNat (.user 0) = res.2 ∧
      res.1.starter_user_id = some res.2) ∧
    ((offline_close s below).1.players_order.getD
        (offline_close s below).1.current_turn_index.toNat 0 = below + 1 ∧
      (offline_close s below).1.starter_player_number = some (below + 1)) := by
  refine ⟨?_, ?_, ?_⟩
  · intro res hok
    have hmin : MIN_PLAYERS = 3 := rfl
    by_cases hne : ((drop_stale_room_players
        (touch_room_user room (.user caller) now) now).1.players.map
          (fun pr => pr.1)) = []
    · have hlen : (drop_stale_room_players
          (touch_room_user room (.user caller) now) now).1.players.length = 0 := by
        have := congrArg List.length hne
        simpa using this
      simp only [room_start] at hok
      repeat' split at hok
      all_goals
        first
        | exact Except.noConfusion hok
        | (exfalso
           omega)
    · simp only [room_start] at hok
      repeat' split at hok
      all_goals
        first
        | exact Except.noConfusion hok
        | (cases hok
           have hmem := random_choice_mem _ pick hne
           exact ⟨hmem, Int.natCast_nonneg _,
             Int.ofNat_lt.mpr (List.indexOf_lt_length.mpr hmem),
             getD_indexOf _ _ _ hmem, rfl⟩)
  · intro res hok
    have hmin : MIN_PLAYERS = 3 := rfl
    by_cases hne : ((drop_stale_room_players
        (touch_room_user room (.user caller) now) now).1.players.map
          (fun pr => pr.1)) = []
    · have hlen : (drop_stale_room_players
          (touch_room_user room (.user caller) now) now).1.players.length = 0 := by
        have := congrArg List.length hne
        simpa using this
      simp only [room_restart] at hok
      repeat' split at hok
      all_goals
        first
        | exact Except.noConfusion hok
        | (exfalso
           omega)
    · simp only [room_restart] at hok
      repeat' split at hok
      all_goals
        first
        | exact Except.noConfusion hok
        | (cases hok
           have hmem := random_choice_mem _ pick hne
           exact ⟨hmem, getD_indexOf _ _ _ hmem, rfl⟩)
  · have hnl : ¬ s.current_player_number < s.player_count := by omega
    have hmem : below + 1 ∈ s.players_order := by
      rw [horder]
      refine List.mem_map.mpr ⟨below.toNat, List.mem_range.mpr (by omega), ?_⟩
      show (below.toNat : Int) + 1 = below + 1
      omega
    rw [offline_close, if_neg hnl, if_pos htimer]
    exact ⟨getD_indexOf _ _ _ hmem, rfl⟩

/-- Closed instance of `starter_first_turn_spec`: a successful start of the
3-player lobby and restart of the started 4-player room both leave the index
on the drawn starter, and the final timer-enabled offline close (draw 2 of
4) leaves the index on seat 3. -/
theorem starter_first_turn_spec_witness :
    (∃ res, room_start roomLobby 1 ["Knight"] oraclePid 4 0 = .ok res ∧
      res.2 ∈ res.1.players_order ∧
      res.1.players_order.getD res.1.current_turn_index.toNat (.user 0) = res.2) ∧
    (∃ res, room_restart roomLobby 1 ["Knight"] oraclePid 4 0 = .ok res ∧
      res.1.players_order.getD res.1.current_turn_index.toNat (.user 0) = res.2) ∧
    (offline_close sessionTimer 2).1.players_order.getD
      (offline_close sessionTimer 2).1.current_turn_index.toNat 0 = 3 ∧
    (offline_close sessionTimer 2).1.starter_player_number = some 3 := by
  have h := starter_first_turn_spec roomLobby 1 ["Knight"] oraclePid 4 0 sessionTimer 2
    (by decide) (by decide) (by decide) (by decide) (by decide)
  refine ⟨?_, ?_, h.2.2.1, h.2.2.2⟩
  · cases hcase : room_start roomLobby 1 ["Knight"] oraclePid 4 0 with
    | error e =>
      have hko : (room_start roomLobby 1 ["Knight"] oraclePid 4 0).isOk = true := by decide
      rw [hcase] at hko
      simp [Except.isOk, Except.toBool] at hko
    | ok res =>
      have hp := h.1 res hcase
      exact ⟨res, rfl, hp.1, hp.2.2.2.1⟩
  · cases hcase : room_restart roomLobby 1 ["Knight"] oraclePid 4 0 with
    | error e =>
      have hko : (room_restart roomLobby 1 ["Knight"] oraclePid 4 0).isOk = true := by decide
      rw [hcase] at hko
      simp [Except.isOk, Except.toBool] at hko
    | ok res =>
      have hp := h.2.1 res hcase
      exact ⟨res, rfl, hp.2.1⟩

/-- Fields untouched by the starter reassignment. -/
theorem remove_starter_step_preserves (room : RoomSession) (u : PlayerId) :
    (remove_starter_step room u).players = room.players ∧
    (remove_starter_step room u).players_order = room.players_order ∧
    (remove_starter_step room u).spy_user_ids = room.spy_user_ids ∧
    (remove_starter_step room u).cards_by_user = room.cards_by_user ∧
    (remove_starter_step room u).last_seen_by_user = room.last_seen_by_user ∧
    (remove_starter_step room u).current_turn_index = room.current_turn_index ∧
    (remove_starter_step room u).turn_state = room.turn_state ∧
    (remove_starter_step room u).turns_completed = room.turns_completed ∧
    (remove_starter_step room u).turn_active = room.turn_active ∧
    (remove_starter_step room u).turn_started_at = room.turn_started_at ∧
    (remove_starter_step room u).owner_user_id = room.owner_user_id := by
  rw [remove_starter_step]
  split
  · exact ⟨rfl, rfl, rfl, rfl, rfl, rfl, rfl, rfl, rfl, rfl, rfl⟩
  · exact ⟨rfl, rfl, rfl, rfl, rfl, rfl, rfl, rfl, rfl, rfl, rfl⟩

/-- Fields untouched by the turn-index adjustment. -/
theorem remove_index_step_preserves (room : RoomSession) (ri : Option Nat) :
    (remove_index_step room ri).players = room.players ∧
    (remove_index_step room ri).players_order = room.players_order ∧
    (remove_index_step room ri).spy_user_ids = room.spy_user_ids ∧
    (remove_index_step room ri).cards_by_user = room.cards_by_user ∧
    (remove_index_step room ri).last_seen_by_user = room.last_seen_by_user ∧
    (remove_index_step room ri).owner_user_id = room.owner_user_id := by
  rw [remove_index_step.eq_def]
  split
  · exact ⟨rfl, rfl, rfl, rfl, rfl, rfl⟩
  · exact ⟨rfl, rfl, rfl, rfl, rfl, rfl⟩

/-- Fields untouched by the ownership reassignment. -/
theorem remove_owner_step_preserves (room : RoomSession) (u : PlayerId) :
    (remove_owner_step room u).players = room.players ∧
    (remove_owner_step room u).players_order = room.players_order ∧
    (remove_owner_step room u).spy_user_ids = room.spy_user_ids ∧
    (remove_owner_step room u).cards_by_user = room.cards_by_user ∧
    (remove_owner_step room u).last_seen_by_user = room.last_seen_by_user ∧
    (remove_owner_step room u).current_turn_index = room.current_turn_index ∧
    (remove_owner_step room u).turn_state = room.turn_state ∧
    (remove_owner_step room u).turns_completed = room.turns_completed ∧
    (remove_owner_step room u).turn_active = room.turn_active ∧
    (remove_owner_step room u).turn_started_at = room.turn_started_at := by
  rw [remove_owner_step.eq_def]
  split
  · simp only []
    split
    · exact ⟨rfl, rfl, rfl, rfl, rfl, rfl, rfl, rfl, rfl, rfl⟩
    · exact ⟨rfl, rfl, rfl, rfl, rfl, rfl, rfl, rfl, rfl, rfl⟩
  · exact ⟨rfl, rfl, rfl, rfl, rfl, rfl, rfl, rfl, rfl, rfl⟩

/-- Fields untouched by the pause step, plus the fields it sets. -/
theorem pause_room_preserves (room : RoomSession) (m : String) (now : ℚ) :
    (pause_room_after_participant_change room m now).players = room.players ∧
    (pause_room_after_participant_change room m now).players_order = room.players_order ∧
    (pause_room_after_participant_change room m now).spy_user_ids = room.spy_user_ids ∧
    (pause_room_after_participant_change room m now).cards_by_user = room.cards_by_user ∧
    (pause_room_after_participant_change room m now).last_seen_by_user =
      room.last_seen_by_user ∧
    (pause_room_after_participant_change room m now).current_turn_index =
      room.current_turn_index ∧
    (pause_room_after_participant_change room m now).turn_state = room.turn_state ∧
    (pause_room_after_participant_change room m now).turns_completed =
      room.turns_completed ∧
    (pause_room_after_participant_change room m now).owner_user_id =
      room.owner_user_id ∧
    (pause_room_after_participant_change room m now).last_status_message = some m ∧
    (room.state = ROOM_STATE_STARTED ∨ room.state = ROOM_STATE_PAUSED →
      (pause_room_after_participant_change room m now).state = ROOM_STATE_PAUSED ∧
      (pause_room_after_participant_change room m now).turn_active = false ∧
      (pause_room_after_participant_change room m now).turn_started_at = none) ∧
    (room.turn_active = false →
      (pause_room_after_participant_change room m now).turn_active = false) := by
  rw [pause_room_after_participant_change, set_room_status_message]
  split
  · refine ⟨rfl, rfl, rfl, rfl, rfl, rfl, rfl, rfl, rfl, rfl, fun _ => ⟨rfl, rfl, rfl⟩, ?_⟩
    intro _
    rfl
  · rename_i hns
    refine ⟨rfl, rfl, rfl, rfl, rfl, rfl, rfl, rfl, rfl, rfl, fun hc => absurd hc hns, ?_⟩
    intro h
    exact h

/-- Looking up the deleted key after a dict deletion yields nothing. -/
theorem alist_get_erase {β : Type} (l : List (PlayerId × β)) (u : PlayerId) :
    alist_get (alist_erase l u) u = none := by
  have hfind : (List.filter (fun pr => pr.1 != u) l).find? (fun pr => pr.1 == u) = none := by
    rw [List.find?_eq_none]
    intro x hx
    have hne := (List.mem_filter.mp hx).2
    simp only [bne_iff_ne, ne_eq] at hne
    simp only [beq_iff_eq]
    exact hne
  rw [alist_get, alist_erase, hfind]
  rfl

/-- Bounds produced by `clamp_turn_index` on a non-empty order. -/
theorem clamp_turn_index_bounds (i : Int) (total : Nat) (h : total ≠ 0) :
    0 ≤ clamp_turn_index i total ∧ clamp_turn_index i total < (total : Int) := by
  rw [clamp_turn_index, if_neg h]
  have htot : (1 : Int) ≤ (total : Int) := by
    exact_mod_cast Nat.one_le_iff_ne_zero.mpr h
  constructor
  · exact le_max_left 0 _
  · exact max_lt (by omega) (lt_of_le_of_lt (min_le_right _ _) (by omega))

/-- On a non-empty order the index adjustment lands inside `[0, len)`. -/
theorem remove_index_step_bounds (room : RoomSession) (ri : Option Nat)
    (h : room.players_order ≠ []) :
    0 ≤ (remove_index_step room ri).current_turn_index ∧
    (remove_index_step room ri).current_turn_index <
      (room.players_order.length : Int) := by
  rw [remove_index_step.eq_def, if_pos h]
  exact clamp_turn_index_bounds _ _ (fun hc => h (List.length_eq_zero.mp hc))

/-- On an empty order the index adjustment finishes the turn machine. -/
theorem remove_index_step_empty (room : RoomSession) (ri : Option Nat)
    (h : room.players_order = []) :
    (remove_index_step room ri).current_turn_index = 0 ∧
    (remove_index_step room ri).turn_active = false ∧
    (remove_index_step room ri).turn_started_at = none ∧
    (remove_index_step room ri).turn_state = TURN_STATE_FINISHED ∧
    (remove_index_step room ri).turns_completed = true := by
  rw [remove_index_step.eq_def, if_neg (by simp [h])]
  exact ⟨rfl, rfl, rfl, rfl, rfl⟩

/-- Ownership reassignment picks the first real id in the turn order, then
the first real roster member, and otherwise leaves ownership alone. -/
theorem remove_owner_step_owner (room : RoomSession) (u : PlayerId)
    (hcond : PlayerId.user room.owner_user_id = u ∧ room.players ≠ []) :
    (∀ i rest, real_ids_in_order room.players_order = i :: rest →
      (remove_owner_step room u).owner_user_id = i) ∧
    (real_ids_in_order room.players_order = [] →
      ∀ i rest, real_room_player_ids room = i :: rest →
        (remove_owner_step room u).owner_user_id = i) := by
  rw [remove_owner_step.eq_def, if_pos hcond]
  constructor
  · intro i rest hrio
    rw [hrio]
  · intro hrio i rest hfb
    rw [hrio, hfb]

/-- The composed shape of a successful removal. -/
theorem remove_room_participant_eq (room : RoomSession) (u : PlayerId)
    (entry : PlayerEntry) (msg : String) (now : ℚ)
    (hget : alist_get room.players u = some entry) :
    remove_room_participant room u msg now =
      (pause_room_after_participant_change
        (remove_owner_step (remove_index_step (remove_starter_step
          (remove_entries_step room u) u) (room.players_order.indexOf? u)) u)
        ((if entry.display_name = "" then "Игрок " ++ playerIdStr u
          else entry.display_name) ++ " " ++ msg) now, true) := by
  rw [remove_room_participant.eq_def, hget]

/-- C6: removing a present participant reports success and deletes the id
from the roster, turn order, secret map, spy list and heartbeat map; the
turn index lands in `[0, len(players_order))` when the order stays
non-empty, and an emptied order forces the finished turn state; when the
owner left, ownership passes to the first remaining real (non-bot)
participant in turn order, falling back to the first remaining real roster
member; a started or paused room becomes paused with a status message; and a
missing identifier yields a negative result without failing. -/
theorem remove_room_participant_spec (room : RoomSession) (u : PlayerId)
    (entry : PlayerEntry) (msg : String) (now : ℚ)
    (hget : alist_get room.players u = some entry)
    (hnodup : room.players_order.Nodup) :
    (remove_room_participant room u msg now).2 = true ∧
    alist_get (remove_room_participant room u msg now).1.players u = none ∧
    u ∉ (remove_room_participant room u msg now).1.players_order ∧
    u ∉ (remove_room_participant room u msg now).1.spy_user_ids ∧
    alist_get (remove_room_participant room u msg now).1.cards_by_user u = none ∧
    alist_get (remove_room_participant room u msg now).1.last_seen_by_user u = none ∧
    ((remove_room_participant room u msg now).1.players_order ≠ [] →
      0 ≤ (remove_room_participant room u msg now).1.current_turn_index ∧
      (remove_room_participant room u msg now).1.current_turn_index <
        ((remove_room_participant room u msg now).1.players_order.length : Int)) ∧
    ((remove_room_participant room u msg now).1.players_order = [] →
      (remove_room_participant room u msg now).1.turn_state = TURN_STATE_FINISHED ∧
      (remove_room_participant room u msg now).1.turns_completed = true ∧
      (remove_room_participant room u msg now).1.current_turn_index = 0 ∧
      (remove_room_participant room u msg now).1.turn_active = false) ∧
    (PlayerId.user room.owner_user_id = u →
      (remove_room_participant room u msg now).1.players ≠ [] →
      ((∀ i rest,
          real_ids_in_order (remove_room_participant room u msg now).1.players_order =
            i :: rest →
          (remove_room_participant room u msg now).1.owner_user_id = i) ∧
       (real_ids_in_order (remove_room_participant room u msg now).1.players_order = [] →
        ∀ i rest,
          real_room_player_ids (remove_room_participant room u msg now).1 = i :: rest →
          (remove_room_participant room u msg now).1.owner_user_id = i))) ∧
    (room.state = ROOM_STATE_STARTED ∨ room.state = ROOM_STATE_PAUSED →
      (remove_room_participant room u msg now).1.state = ROOM_STATE_PAUSED ∧
      (remove_room_participant room u msg now).1.turn_active = false ∧
      (remove_room_participant room u msg now).1.turn_started_at = none) ∧
    (remove_room_participant room u msg now).1.last_status_message =
      some ((if entry.display_name = "" then "Игрок " ++ playerIdStr u
        else entry.display_name) ++ " " ++ msg) ∧
    (∀ v, alist_get room.players v = none →
      remove_room_participant room v msg now = (room, false)) := by
  have heq := remove_room_participant_eq room u entry msg now hget
  rw [heq]
  simp only []
  obtain ⟨hs1, hs2, hs3, hs4, hs5, hs6, hs7, hs8, hs9, hs10, hs11⟩ :=
    remove_starter_step_preserves (remove_entries_step room u) u
  obtain ⟨hi1, hi2, hi3, hi4, hi5, hi6⟩ :=
    remove_index_step_preserves (remove_starter_step (remove_entries_step room u) u)
      (room.players_order.indexOf? u)
  obtain ⟨ho1, ho2, ho3, ho4, ho5, ho6, ho7, ho8, ho9, ho10⟩ :=
    remove_owner_step_preserves (remove_index_step (remove_starter_step
      (remove_entries_step room u) u) (room.players_order.indexOf? u)) u
  obtain ⟨hp1, hp2, hp3, hp4, hp5, hp6, hp7, hp8, hp9, hp10, hp11, hp12⟩ :=
    pause_room_preserves (remove_owner_step (remove_index_step (remove_starter_step
      (remove_entries_step room u) u) (room.players_order.indexOf? u)) u)
      ((if entry.display_name = "" then "Игрок " ++ playerIdStr u
        else entry.display_name) ++ " " ++ msg) now
  have hplayers : (pause_room_after_participant_change (remove_owner_step
      (remove_index_step (remove_starter_step (remove_entries_step room u) u)
        (room.players_order.indexOf? u)) u)
      ((if entry.display_name = "" then "Игрок " ++ playerIdStr u
        else entry.display_name) ++ " " ++ msg) now).players =
      alist_erase room.players u := by
    rw [hp1, ho1, hi1, hs1]
    rfl
  have horder : (pause_room_after_participant_change (remove_owner_step
      (remove_index_step (remove_starter_step (remove_entries_step room u) u)
        (room.players_order.indexOf? u)) u)
      ((if entry.display_name = "" then "Игрок " ++ playerIdStr u
        else entry.display_name) ++ " " ++ msg) now).players_order =
      room.players_order.erase u := by
    rw [hp2, ho2, hi2, hs2]
    rfl
  have hstate3 : (remove_owner_step (remove_index_step (remove_starter_step
      (remove_entries_step room u) u) (room.players_order.indexOf? u)) u).state =
      room.state := by
    rw [remove_owner_step_state, remove_index_step_state, remove_starter_step_state]
    rfl
  refine ⟨trivial, ?_, ?_, ?_, ?_, ?_, ?_, ?_, ?_, ?_, hp10, ?_⟩
  · rw [hplayers]
    exact alist_get_erase room.players u
  · rw [horder]
    exact hnodup.not_mem_erase
  · rw [hp3, ho3, hi3, hs3]
    show u ∉ room.spy_user_ids.filter (fun s => s != u)
    intro hc
    have := (List.mem_filter.mp hc).2
    simp at this
  · rw [hp4, ho4, hi4, hs4]
    exact alist_get_erase room.cards_by_user u
  · rw [hp5, ho5, hi5, hs5]
    exact alist_get_erase room.last_seen_by_user u
  · intro hne
    rw [horder] at hne
    have hne1 : (remove_starter_step (remove_entries_step room u) u).players_order ≠ [] := by
      rw [hs2]
      exact hne
    have hb := remove_index_step_bounds (remove_starter_step (remove_entries_step room u) u)
      (room.players_order.indexOf? u) hne1
    rw [hs2] at hb
    constructor
    · rw [hp6, ho6]
      exact hb.1
    · rw [hp6, ho6, horder]
      exact hb.2
  · intro hemp
    rw [horder] at hemp
    have hemp1 : (remove_starter_step (remove_entries_step room u) u).players_order = [] := by
      rw [hs2]
      exact hemp
    have hb := remove_index_step_empty (remove_starter_step (remove_entries_step room u) u)
      (room.players_order.indexOf? u) hemp1
    refine ⟨?_, ?_, ?_, hp12 (by rw [ho9]; exact hb.2.1)⟩
    · rw [hp7, ho7]
      exact hb.2.2.2.1
    · rw [hp8, ho8]
      exact hb.2.2.2.2
    · rw [hp6, ho6]
      exact hb.1
  · intro howner hne
    rw [hplayers] at hne
    have hcond : PlayerId.user (remove_index_step (remove_starter_step
        (remove_entries_step room u) u) (room.players_order.indexOf? u)).owner_user_id = u ∧
        (remove_index_step (remove_starter_step (remove_entries_step room u) u)
          (room.players_order.indexOf? u)).players ≠ [] := by
      constructor
      · rw [hi6, hs11]
        exact howner
      · rw [hi1, hs1]
        exact hne
    have how := remove_owner_step_owner _ u hcond
    have horder2 : (remove_index_step (remove_starter_step (remove_entries_step room u) u)
        (room.players_order.indexOf? u)).players_order = room.players_order.erase u := by
      rw [hi2, hs2]
      rfl
    constructor
    · intro i rest hrio
      rw [hp9]
      apply how.1 i rest
      rw [horder2]
      rw [horder] at hrio
      exact hrio
    · intro hrio i rest hfb
      rw [hp9]
      have hfb2 : real_room_player_ids (remove_index_step (remove_starter_step
          (remove_entries_step room u) u) (room.players_order.indexOf? u)) = i :: rest := by
        rw [real_room_player_ids, hi1, hs1]
        rw [real_room_player_ids, hplayers] at hfb
        exact hfb
      apply how.2 ?_ i rest hfb2
      rw [horder2]
      rw [horder] at hrio
      exact hrio
  · intro hstarted
    have := hp11 (by rw [hstate3]; exact hstarted)
    exact this
  · intro v hv
    rw [remove_room_participant.eq_def, hv]

/-- Closed instance of `remove_room_participant_spec`: removing the
participant holding the current turn of the started 4-player room scrubs
them everywhere, keeps the index in `[0, 3)`, pauses the room with a status
message; removing the owner hands ownership to the first remaining real
participant; removing an absent id is a negative no-op. -/
theorem remove_room_participant_spec_witness :
    (remove_room_participant roomTimer (.user 2) "вышел из комнаты" 0).2 = true ∧
    alist_get (remove_room_participant roomTimer (.user 2) "вышел из комнаты" 0).1.players
      (.user 2) = none ∧
    PlayerId.user 2 ∉
      (remove_room_participant roomTimer (.user 2) "вышел из комнаты" 0).1.players_order ∧
    PlayerId.user 2 ∉
      (remove_room_participant roomTimer (.user 2) "вышел из комнаты" 0).1.spy_user_ids ∧
    (0 ≤ (remove_room_participant roomTimer (.user 2) "вышел из комнаты" 0).1.current_turn_index ∧
      (remove_room_participant roomTimer (.user 2) "вышел из комнаты" 0).1.current_turn_index <
        ((remove_room_participant roomTimer
          (.user 2) "вышел из комнаты" 0).1.players_order.length : Int)) ∧
    (remove_room_participant roomTimer (.user 2) "вышел из комнаты" 0).1.state =
      ROOM_STATE_PAUSED ∧
    (remove_room_participant roomTimer (.user 2) "вышел из комнаты" 0).1.last_status_message =
      some "Bella вышел из комнаты" ∧
    (remove_room_participant roomTimer (.user 1) "вышел из комнаты" 0).1.owner_user_id = 2 ∧
    remove_room_participant roomTimer (.user 9) "вышел из комнаты" 0 = (roomTimer, false) := by
  have h := remove_room_participant_spec roomTimer (.user 2) entryBella
    "вышел из комнаты" 0 (by decide) (by decide)
  have h2 := remove_room_participant_spec roomTimer (.user 1) entryAlice
    "вышел из комнаты" 0 (by decide) (by decide)
  refine ⟨h.1, h.2.1, h.2.2.1, h.2.2.2.1, h.2.2.2.2.2.2.1 (by decide),
    (h.2.2.2.2.2.2.2.2.2.1 (Or.inl rfl)).1, ?_, ?_,
    h.2.2.2.2.2.2.2.2.2.2.2 (.user 9) (by decide)⟩
  · rw [h.2.2.2.2.2.2.2.2.2.2.1]
    rfl
  · exact (h2.2.2.2.2.2.2.2.2.1 rfl (by decide)).1 2 [3, 4] (by decide)

end SpyGame
